import Mathlib

/-!
Verification of the Enhanced Creative Writing System (AI Dungeon script set).

The development shallowly embeds the JavaScript sources:
  * `src/output.js`      — the output `modifier` (sanitize, analyze, regenerate),
  * `src/context.js`     — the context `modifier` (corrections, adaptive VS, injection),
  * the shared library   — `CONFIG`, `BonepokeAnalysis`, `DynamicCorrection`,
                           `VerbalizedSampling`, story-card management, `Analytics`.

Strings are modelled as `List Char`; the specific regular expressions used by
`cleanOutput` are implemented as dedicated scanners with JavaScript `replace`
semantics (left-to-right, non-overlapping, lazy/greedy as in the source
patterns).  JavaScript numbers that only ever hold small integers are `Nat`;
fractional quantities (score averages, thresholds, tau) are exact fractions
(`Frac`, with embedding `Frac.toRat` into `ℚ` for specification statements) —
every comparison the code performs sits far from any double-rounding boundary,
so exact rationals and IEEE doubles agree on every decision taken.
Timestamps (`Date.now()`) and console logging are presentation-level effects
with no influence on any data path and are omitted.
-/

set_option maxRecDepth 8000

namespace ECWS

/-- JavaScript whitespace (ASCII part; all texts handled here are ASCII). -/
def isWsChar (c : Char) : Bool :=
  c = ' ' || c = '\t' || c = '\n' || c = '\r' || c = '\x0b' || c = '\x0c'

/-- Characters of a string literal, the working representation of JS strings. -/
def toL (s : String) : List Char := s.data

/-- Trailing-whitespace removal (structural form of the reverse-and-drop). -/
def dropTrailingWs : List Char → List Char
  | [] => []
  | c :: cs =>
    let r := dropTrailingWs cs
    if r.isEmpty && isWsChar c then [] else c :: r

/-- JS `String.prototype.trim` (ASCII whitespace). -/
def trimL (l : List Char) : List Char :=
  dropTrailingWs (l.dropWhile isWsChar)

/-- JS `String.prototype.toLowerCase` (ASCII). -/
def lowerL (l : List Char) : List Char := l.map Char.toLower

/-- JS `String.prototype.includes pat` (substring test). -/
def containsSub (pat : List Char) : List Char → Bool
  | [] => pat.isEmpty
  | c :: cs => pat.isPrefixOf (c :: cs) || containsSub pat cs

/-- JS `split(sep)` for a single separator character. -/
def splitOnC (sep : Char) : List Char → List (List Char)
  | [] => [[]]
  | c :: cs =>
    match splitOnC sep cs with
    | [] => [[c]]
    | g :: gs => if c = sep then [] :: g :: gs else (c :: g) :: gs

/-- Split at every whitespace character (used with a non-empty filter this
agrees with JS `split(/\s+/)` wherever the JS caller filters short tokens). -/
def splitAnyWs : List Char → List (List Char)
  | [] => [[]]
  | c :: cs =>
    match splitAnyWs cs with
    | [] => [[]]
    | g :: gs => if isWsChar c then [] :: g :: gs else (c :: g) :: gs

/-- JS `slice(-n)`: the last `n` elements (whole list when shorter). -/
def takeRight {α : Type} (n : Nat) (l : List α) : List α :=
  l.drop (l.length - n)

/-- JS `Array.prototype.splice(n, 0, a)`: insert at position `n`. -/
def insertAt {α : Type} (n : Nat) (a : α) (l : List α) : List α :=
  l.take n ++ a :: l.drop n

/-- JS `Array.prototype.splice(n, 1)`: remove the element at position `n`. -/
def removeAt {α : Type} (n : Nat) (l : List α) : List α :=
  l.take n ++ l.drop (n + 1)

/-- A matcher: given the text at the current position, optionally return the
remainder after a match (with the bound needed for scanner termination). -/
abbrev MM := (l : List Char) → Option { r : List Char // r.length ≤ l.length }

/-- Literal pattern (case-insensitive when `ci`; `pat` pre-lowered then). -/
def litM (ci : Bool) (pat : List Char) : MM := fun l =>
  let ok := if ci then (l.take pat.length).map Char.toLower == pat
            else l.take pat.length == pat
  if ok then some ⟨l.drop pat.length, by simp [List.length_drop]⟩ else none

/-- Sequencing of matchers. -/
def seqM (a b : MM) : MM := fun l =>
  match a l with
  | none => none
  | some r =>
    match b r.1 with
    | none => none
    | some r2 => some ⟨r2.1, le_trans r2.2 r.2⟩

/-- Ordered alternative (backtracking point expanded at the top level). -/
def altM (a b : MM) : MM := fun l =>
  match a l with
  | some r => some r
  | none => b l

/-- Pattern `\d+` (greedy; every use site is followed by a non-digit literal). -/
def digitsM : MM := fun l =>
  let n := (l.takeWhile Char.isDigit).length
  if n = 0 then none else some ⟨l.drop n, by simp [List.length_drop]⟩

/-- Pattern `[^c]*` (greedy; every use site is followed by `c` or end of pattern). -/
def notCharStarM (bad : Char) : MM := fun l =>
  let n := (l.takeWhile (fun c => !(c = bad))).length
  some ⟨l.drop n, by simp [List.length_drop]⟩

/-- Lazy gap up to and through `stop`: `[\s\S]*?stop` when `allowNL`, else
`.*?stop` (the dot of the source regexes does not match a newline). -/
def lazyThroughGo (ci allowNL : Bool) (stop : List Char) :
    (l : List Char) → Option { r : List Char // r.length ≤ l.length }
  | [] =>
    match litM ci stop [] with
    | some r => some r
    | none => none
  | c :: cs =>
    match litM ci stop (c :: cs) with
    | some r => some r
    | none =>
      if !allowNL && c = '\n' then none
      else
        match lazyThroughGo ci allowNL stop cs with
        | some r => some ⟨r.1, Nat.le_succ_of_le r.2⟩
        | none => none

def lazyThrough (ci allowNL : Bool) (stop : List Char) : MM :=
  fun l => lazyThroughGo ci allowNL stop l

/-- Fuel-driven scanner body; the fuel (initially the text length) dominates
the number of steps since every match consumes at least one character. -/
def scanRemoveGo (m : MM) : Nat → List Char → List Char
  | _, [] => []
  | 0, l => l
  | fuel + 1, c :: cs =>
    match m (c :: cs) with
    | some r =>
      if r.1.length < cs.length + 1 then scanRemoveGo m fuel r.1
      else c :: scanRemoveGo m fuel cs
    | none => c :: scanRemoveGo m fuel cs

/-- JS `replace(pat, '')` with the `g` flag: scan left to right, removing
non-overlapping matches (all patterns below consume at least one character). -/
def scanRemoveM (m : MM) (l : List Char) : List Char :=
  scanRemoveGo m l.length l

/-! ### The sanitize pipeline of `src/output.js` (`cleanOutput` and friends) -/

/-- Pattern `<\/?name>` (flag g): a tag such as `<response>` or `</response>`. -/
def tagM (name : String) : MM :=
  altM (litM false (toL ("</" ++ name ++ ">"))) (litM false (toL ("<" ++ name ++ ">")))

/-- Pattern `<\/?candidate[^>]*>` (flag g). -/
def candTagM : MM :=
  altM
    (seqM (litM false (toL "</candidate")) (seqM (notCharStarM '>') (litM false (toL ">"))))
    (seqM (litM false (toL "<candidate")) (seqM (notCharStarM '>') (litM false (toL ">"))))

/-- Pattern `\[Internal Sampling Protocol:[\s\S]*?\]` (flag g). -/
def vsBlockM : MM :=
  seqM (litM false (toL "[Internal Sampling Protocol:")) (lazyThrough false true (toL "]"))

/-- Pattern `Internal Sampling Protocol:[\s\S]*?never mention this process[^\n]*` (flag g). -/
def vsBareM : MM :=
  seqM (litM false (toL "Internal Sampling Protocol:"))
    (seqM (lazyThrough false true (toL "never mention this process")) (notCharStarM '\n'))

/-- Pattern `- (mentally )?generate \d+ distinct.*?candidates` (flags gi; the optional group
is expanded into the two alternatives regex backtracking would try). -/
def frag1M : MM :=
  altM
    (seqM (litM true (toL "- mentally generate "))
      (seqM digitsM (seqM (litM true (toL " distinct")) (lazyThrough true false (toL "candidates")))))
    (seqM (litM true (toL "- generate "))
      (seqM digitsM (seqM (litM true (toL " distinct")) (lazyThrough true false (toL "candidates")))))

/-- Pattern `- for each.*?probability p` (flags gi). -/
def frag2M : MM :=
  seqM (litM true (toL "- for each")) (lazyThrough true false (toL "probability p"))

/-- Pattern `- only consider candidates where p <.*?\)` (flags gi). -/
def frag3M : MM :=
  seqM (litM true (toL "- only consider candidates where p <")) (lazyThrough true false (toL ")"))

/-- Pattern `- randomly select one.*?candidates` (flags gi). -/
def frag4M : MM :=
  seqM (litM true (toL "- randomly select one")) (lazyThrough true false (toL "candidates"))

/-- Pattern `- output ONLY.*?response` (flags gi). -/
def frag5M : MM :=
  seqM (litM true (toL "- output only")) (lazyThrough true false (toL "response"))

/-- Pattern `- never mention.*?output` (flags gi). -/
def frag6M : MM :=
  seqM (litM true (toL "- never mention")) (lazyThrough true false (toL "output"))

/-- Pattern `from the unlikely tails.*?distribution` (flags gi). -/
def frag7M : MM :=
  seqM (litM true (toL "from the unlikely tails")) (lazyThrough true false (toL "distribution"))

/-- Lines 17–37 of `cleanOutput`: markup stripping and directive-leakage removal,
in source order. -/
def directiveScrub (t : List Char) : List Char :=
  let t := scanRemoveM (tagM "response") t
  let t := scanRemoveM (tagM "probability") t
  let t := scanRemoveM (tagM "text") t
  let t := scanRemoveM candTagM t
  let t := scanRemoveM (tagM "selected") t
  let t := scanRemoveM vsBlockM t
  let t := scanRemoveM vsBareM t
  let t := scanRemoveM frag1M t
  let t := scanRemoveM frag2M t
  let t := scanRemoveM frag3M t
  let t := scanRemoveM frag4M t
  let t := scanRemoveM frag5M t
  let t := scanRemoveM frag6M t
  scanRemoveM frag7M t

/-- JS `output.replace` with pattern `stop\s*$` (flag i): the single leftmost match of the
anchored pattern removes the final `stop` plus any trailing whitespace. -/
def stripTrailingStop (l : List Char) : List Char :=
  let t := (l.reverse.dropWhile isWsChar).reverse
  if (t.reverse.take 4).map Char.toLower = toL "pots" then t.take (t.length - 4) else l

def nlRun (k : Nat) : List Char :=
  if 3 ≤ k then ['\n', '\n'] else List.replicate k '\n'

/-- JS `output.replace` with pattern `\n\x7b3,\x7d` (flag g): collapse runs of three or more
newlines to exactly two. -/
def collapseGo : Nat → List Char → List Char
  | k, [] => nlRun k
  | k, c :: cs => if c = '\n' then collapseGo (k + 1) cs else nlRun k ++ c :: collapseGo 0 cs

def collapseNL (l : List Char) : List Char := collapseGo 0 l

/-- Function `cleanOutput` of `src/output.js`: scrub markup and directive fragments,
drop a trailing `stop` artifact, trim, and normalize newline runs. -/
def cleanOutput (t : List Char) : List Char :=
  collapseNL (trimL (trimL (stripTrailingStop (directiveScrub t))))

/-! ### Duplicate-prefix removal against the previous turn -/

/-- One turn-history entry (`{ type, text }`). -/
structure HistEntry where
  htype : String
  text : String
deriving DecidableEq

/-- JS `history.slice().reverse().find(h => h.type === 'ai')`. -/
def lastAiText (hist : List HistEntry) : Option String :=
  (hist.reverse.find? (fun h => h.htype == "ai")).map (fun h => h.text)

/-- JS `lastChunk.slice(-len).trim()` for `lastChunk` the prior turn's tail. -/
def dedupSuffix (chunk : List Char) (len : Nat) : List Char :=
  trimL (takeRight len chunk)

/-- JS `suffix && text.trim().startsWith(suffix)` at candidate length `len`. -/
def dedupHit (chunk ttrim : List Char) (len : Nat) : Bool :=
  !(dedupSuffix chunk len).isEmpty && (dedupSuffix chunk len).isPrefixOf ttrim

/-- The `for (let len = 50; len >= 10; len--)` search; on the first (longest)
hit the duplicated prefix is cut from the trimmed text. -/
def dedupGo (chunk ttrim : List Char) : Nat → Option (List Char)
  | 0 => none
  | len + 1 =>
    if len + 1 < 10 then none
    else if dedupHit chunk ttrim (len + 1) then
      some (trimL (ttrim.drop (dedupSuffix chunk (len + 1)).length))
    else dedupGo chunk ttrim len

/-- Duplicate search against an optional prior AI text. -/
def dedupSearchAux (ttrim : List Char) : Option String → Option (List Char)
  | some s => if s.data = [] then none else dedupGo (takeRight 100 s.data) ttrim 50
  | none => none

/-- The whole duplicate search of lines 57–79 (`none` when no prior AI turn,
an empty prior text, or no candidate length matches). -/
def dedupSearch (hist : List HistEntry) (ttrim : List Char) : Option (List Char) :=
  dedupSearchAux ttrim (lastAiText hist)

def applyDedupAux (t : List Char) : Option (List Char) → List Char
  | some r => r
  | none => t

/-- Lines 57–79: replace the text when a duplicated prefix is found, keep the
original (untrimmed) text otherwise. -/
def applyDedup (hist : List HistEntry) (t : List Char) : List Char :=
  applyDedupAux t (dedupSearch hist (trimL t))

/-- Lines 81–84: guarantee a single leading space. -/
def addSpace (t : List Char) : List Char :=
  if t.head? = some ' ' then t else ' ' :: t

/-- The full sanitize step of the output modifier (lines 52–84):
clean, remove the duplicated prefix, normalize the leading space. -/
def sanitizeText (hist : List HistEntry) (raw : List Char) : List Char :=
  addSpace (applyDedup hist (cleanOutput raw))

/-! ### Exact fractions -/

/-- An exact non-negative fraction (numerator / positive denominator), the
computational stand-in for the JS numbers holding score averages and
thresholds. -/
structure Frac where
  num : Nat
  den : Nat
deriving DecidableEq

/-- Strict comparison by cross-multiplication. -/
def Frac.blt (a b : Frac) : Bool := a.num * b.den < b.num * a.den

/-- Non-strict comparison by cross-multiplication. -/
def Frac.ble (a b : Frac) : Bool := a.num * b.den ≤ b.num * a.den

/-- The rational value of a fraction (for specification statements). -/
def Frac.toRat (a : Frac) : ℚ := (a.num : ℚ) / (a.den : ℚ)

def fracStr (a : Frac) : String := toString a.num ++ "/" ++ toString a.den

/-! ### Configuration (shared library `CONFIG`) -/

structure VsConfig where
  enabled : Bool
  k : Nat
  tau : Frac
  seamless : Bool
  adaptive : Bool
  debugLogging : Bool
deriving DecidableEq

structure BonepokeConfig where
  enabled : Bool
  fatigueThreshold : Nat
  qualityThreshold : Frac
  maxRegenAttempts : Nat
  enableDynamicCorrection : Bool
  debugLogging : Bool
deriving DecidableEq

structure SystemConfig where
  persistState : Bool
  enableAnalytics : Bool
deriving DecidableEq

structure Config where
  vs : VsConfig
  bonepoke : BonepokeConfig
  system : SystemConfig
deriving DecidableEq

/-- The default `CONFIG` object of the shared library. -/
def CONFIG : Config :=
  { vs := { enabled := true, k := 5, tau := ⟨10, 100⟩, seamless := true,
            adaptive := false, debugLogging := false }
    bonepoke := { enabled := true, fatigueThreshold := 5, qualityThreshold := ⟨25, 10⟩,
                  maxRegenAttempts := 2, enableDynamicCorrection := true,
                  debugLogging := false }
    system := { persistState := true, enableAnalytics := false } }

/-! ### BonepokeAnalysis (shared library) -/

/-- Lines 281–287: sentence-like segments holding a temporal marker together
with a negation. -/
def detectContradictions (fragment : List Char) : List (List Char) :=
  ((splitOnC '.' (lowerL fragment)).filter (fun line =>
      ([toL "already", toL "still", toL "again"].any (fun t => containsSub t line)) &&
      containsSub (toL "not") line)).map trimL

/-- JS `\w` word characters. -/
def wordChar (c : Char) : Bool := c.isAlpha || c.isDigit || c = '_'

/-- Lines 292–304 tokenization: lowercase, blank out non-word non-space
characters, split on whitespace, keep tokens longer than three characters. -/
def fatigueTokens (fragment : List Char) : List (List Char) :=
  (splitAnyWs ((lowerL fragment).map (fun c => if wordChar c || isWsChar c then c else ' '))).filter
    (fun w => 3 < w.length)

/-- Counting into a JS object: first-occurrence key order is preserved. -/
def insertCount : List (List Char × Nat) → List Char → List (List Char × Nat)
  | [], w => [(w, 1)]
  | (x, n) :: rest, w =>
    if x = w then (x, n + 1) :: rest else (x, n) :: insertCount rest w

def countWords (ws : List (List Char)) : List (List Char × Nat) :=
  ws.foldl insertCount []

/-- Lines 292–304: word-repetition (fatigue) map, keeping only words at or
above the configured threshold. -/
def traceFatigue (cfg : Config) (fragment : List Char) : List (List Char × Nat) :=
  (countWords (fatigueTokens fragment)).filter
    (fun p => cfg.bonepoke.fatigueThreshold ≤ p.2)

def systemTerms : List (List Char) :=
  [toL "system", toL "sequence", toL "signal", toL "process", toL "loop", toL "protocol"]

def actionVerbs : List (List Char) :=
  [toL "pressed", toL "moved", toL "spoke", toL "acted", toL "responded",
   toL "decided", toL "changed"]

/-- The test `^[^"]*"[^"]*"[^"]*$` on the trimmed line: exactly two quote
characters. -/
def pureDialogueLine (line : List Char) : Bool :=
  ((trimL line).filter (fun c => c = '"')).length = 2

/-- Lines 309–324: segments using system-speak without a grounding action verb
(pure-dialogue segments exempt). -/
def detectDrift (fragment : List Char) : List (List Char) :=
  ((splitOnC '.' fragment).filter (fun line =>
      !pureDialogueLine line &&
      (systemTerms.any (fun t => containsSub t (lowerL line))) &&
      !(actionVerbs.any (fun a => containsSub a (lowerL line))))).map trimL

/-- Lines 329–345: the meta-awareness (MARM) status. -/
def calculateMarm (fragment : List Char) (contradictions : List (List Char))
    (fatigue : List (List Char × Nat)) (drift : List (List Char)) : String :=
  let text := lowerL fragment
  let s1 : Nat := if [toL "ache", toL "loop", toL "shimmer", toL "echo",
      toL "recursive"].any (fun t => containsSub t text) then 1 else 0
  let score := s1 + min contradictions.length 2 +
    (if fatigue.isEmpty then 0 else 1) + (if drift.isEmpty then 0 else 1)
  if 3 ≤ score then "MARM: active"
  else if score = 2 then "MARM: flicker"
  else "MARM: suppressed"

/-- The immutable analysis payload (`composted`); the creation timestamp
(`Date.now()`) is presentation-only and omitted. -/
structure Composted where
  fragment : List Char
  contradictions : List (List Char)
  fatigue : List (List Char × Nat)
  drift : List (List Char)
  marm : String
deriving DecidableEq

def emotionWords : List (List Char) :=
  [toL "felt", toL "cried", toL "laughed", toL "trembled", toL "ache"]

def pronounWords : List (List Char) := [toL "he", toL "she", toL "i", toL "you"]

/-- Whole-word, case-insensitive occurrence (the `\b w \b` test of the source;
`w` is supplied pre-lowered and consists of word characters). -/
def hasWholeWordGo (w : List Char) (prev : Option Char) : List Char → Bool
  | [] => false
  | c :: cs =>
    ((match prev with | none => true | some p => !wordChar p) &&
      ((c :: cs).take w.length).map Char.toLower == w &&
      (match ((c :: cs).drop w.length).head? with
       | none => true
       | some nxt => !wordChar nxt)) ||
    hasWholeWordGo w (some c) cs

def hasWholeWord (w : List Char) (l : List Char) : Bool :=
  hasWholeWordGo w none l

/-- The five quality dimensions. -/
structure Scores where
  emotionalStrength : Nat
  storyFlow : Nat
  characterClarity : Nat
  dialogueWeight : Nat
  wordVariety : Nat
deriving DecidableEq

def hasEmotion (fragment : List Char) : Bool :=
  emotionWords.any (fun e => containsSub e (lowerL fragment))

def hasCharacter (fragment : List Char) : Bool :=
  pronounWords.any (fun p => hasWholeWord p fragment)

def hasDialogue (fragment : List Char) : Bool :=
  containsSub (toL "\"") fragment || hasWholeWord (toL "said") fragment

/-- Lines 350–380: `scoreOutput`. -/
def scoreOutput (composted : Composted) : Scores :=
  { emotionalStrength := if hasEmotion composted.fragment then 4 else 2
    storyFlow :=
      if !composted.contradictions.isEmpty || !composted.drift.isEmpty then 1 else 5
    characterClarity := if hasCharacter composted.fragment then 4 else 2
    dialogueWeight := if hasDialogue composted.fragment then 4 else 2
    wordVariety := if !composted.fatigue.isEmpty then 1 else 5 }

def scoresSum (s : Scores) : Nat :=
  s.emotionalStrength + s.storyFlow + s.characterClarity + s.dialogueWeight + s.wordVariety

/-- Lines 385–401: `generateSuggestions`. -/
def generateSuggestions (composted : Composted) : List String :=
  (composted.contradictions.map (fun line =>
      "Contradiction: \"" ++ String.mk line ++ "\" - clarify temporal logic")) ++
  (composted.drift.map (fun line =>
      "Ungrounded: \"" ++ String.mk line ++ "\" - add concrete action")) ++
  (composted.fatigue.map (fun p =>
      "Overused: \"" ++ String.mk p.1 ++ "\" (" ++ toString p.2 ++ "x) - use synonyms"))

/-- The full analysis record returned by `BonepokeAnalysis.analyze`. -/
structure Analysis where
  composted : Composted
  scores : Scores
  avgScore : Frac
  suggestions : List String
  quality : String
deriving DecidableEq

/-- Lines 406–440 without the entry guard: the analysis of a non-empty
fragment with the system enabled. -/
def analyzeCore (cfg : Config) (fragment : List Char) : Analysis :=
  let contradictions := detectContradictions fragment
  let fatigue := traceFatigue cfg fragment
  let drift := detectDrift fragment
  let marm := calculateMarm fragment contradictions fatigue drift
  let composted : Composted :=
    { fragment := fragment, contradictions := contradictions, fatigue := fatigue,
      drift := drift, marm := marm }
  let scores := scoreOutput composted
  let avgScore : Frac := ⟨scoresSum scores, 5⟩
  { composted := composted, scores := scores, avgScore := avgScore,
    suggestions := generateSuggestions composted,
    quality :=
      if Frac.ble ⟨4, 1⟩ avgScore then "excellent"
      else if Frac.ble ⟨3, 1⟩ avgScore then "good"
      else if Frac.ble ⟨2, 1⟩ avgScore then "fair" else "poor" }

/-- `BonepokeAnalysis.analyze` (lines 406–440): `null` when disabled or the
fragment is empty (falsy). -/
def analyze (cfg : Config) (fragment : List Char) : Option Analysis :=
  if !cfg.bonepoke.enabled || fragment.isEmpty then none
  else some (analyzeCore cfg fragment)

/-! ### Analytics and the output modifier (`src/output.js`) -/

/-- `state.metrics` as set up by `initState`. -/
structure Metrics where
  totalOutputs : Nat
  regenerations : Nat
  fatigueDetections : Nat
  driftDetections : Nat
deriving DecidableEq

/-- The slice of the session `state` object touched by the output modifier. -/
structure OutState where
  regenCount : Nat
  regenThisOutput : Nat
  bonepokeHistory : List Analysis
  lastBonepokeScore : Option Frac
  metrics : Metrics
deriving DecidableEq

/-- The state produced by `initState` for a fresh session. -/
def initOutState : OutState :=
  { regenCount := 0, regenThisOutput := 0, bonepokeHistory := [],
    lastBonepokeScore := none, metrics := ⟨0, 0, 0, 0⟩ }

/-- `Analytics.recordOutput` (lines 583–596). -/
def recordOutput (cfg : Config) (m : Metrics) (analysis : Option Analysis) : Metrics :=
  if !cfg.system.enableAnalytics then m
  else
    let m := { m with totalOutputs := m.totalOutputs + 1 }
    match analysis with
    | some a =>
      let m := if !a.composted.fatigue.isEmpty then
          { m with fatigueDetections := m.fatigueDetections + 1 } else m
      if !a.composted.drift.isEmpty then
        { m with driftDetections := m.driftDetections + 1 } else m
    | none => m

/-- `Analytics.recordRegeneration` (lines 601–604). -/
def recordRegeneration (cfg : Config) (m : Metrics) : Metrics :=
  if cfg.system.enableAnalytics then { m with regenerations := m.regenerations + 1 } else m

/-- `Analytics.getSummary` (lines 609–621); the JS presents the three rates as
strings via `toFixed(1)`, modelled as exact percentages. -/
structure Summary where
  totalOutputs : Nat
  regenerations : Nat
  regenRate : ℚ
  fatigueRate : ℚ
  driftRate : ℚ
deriving DecidableEq

def getSummary (m : Metrics) : Summary :=
  { totalOutputs := m.totalOutputs
    regenerations := m.regenerations
    regenRate := if 0 < m.totalOutputs then
        (m.regenerations : ℚ) / (m.totalOutputs : ℚ) * 100 else 0
    fatigueRate := if 0 < m.totalOutputs then
        (m.fatigueDetections : ℚ) / (m.totalOutputs : ℚ) * 100 else 0
    driftRate := if 0 < m.totalOutputs then
        (m.driftDetections : ℚ) / (m.totalOutputs : ℚ) * 100 else 0 }

/-- The result of the output modifier: the regeneration signal
`{ text: '', stop: true }`, or the accepted final text. -/
inductive OutResult where
  | regen : OutResult
  | accept : String → OutResult
deriving DecidableEq

/-- The analysis the output modifier computes for a raw generation (line 87). -/
def analyzeOf (cfg : Config) (hist : List HistEntry) (raw : String) : Option Analysis :=
  if cfg.bonepoke.enabled then analyze cfg (sanitizeText hist raw.data) else none

/-- Lines 91–102: push the analysis onto `state.bonepokeHistory`, keeping the
last 20. -/
def pushBounded (h : List Analysis) (a : Analysis) : List Analysis :=
  let h2 := h ++ [a]
  if 20 < h2.length then takeRight 20 h2 else h2

/-- `shouldRegenerate` (lines 105–131), as a predicate of the state and the
analysis in scope. -/
def shouldRegenerate (cfg : Config) (st : OutState) (analysis : Option Analysis) : Bool :=
  cfg.bonepoke.enabled && analysis.isSome &&
  decide (st.regenThisOutput < cfg.bonepoke.maxRegenAttempts) &&
  (match analysis with
   | some a => Frac.blt a.avgScore cfg.bonepoke.qualityThreshold
   | none => false)

/-- The output `modifier` of `src/output.js` as a state transformer. -/
def outputModifier (cfg : Config) (hist : List HistEntry) (st : OutState)
    (raw : String) : OutState × OutResult :=
  let text := sanitizeText hist raw.data
  let analysis := analyzeOf cfg hist raw
  let st :=
    match analysis with
    | some a =>
      { st with bonepokeHistory := pushBounded st.bonepokeHistory a,
                lastBonepokeScore := some a.avgScore }
    | none => st
  if shouldRegenerate cfg st analysis then
    ({ st with regenCount := st.regenCount + 1,
               regenThisOutput := st.regenThisOutput + 1,
               metrics := recordRegeneration cfg st.metrics }, OutResult.regen)
  else
    let st := { st with regenThisOutput := 0,
                        metrics := recordOutput cfg st.metrics analysis }
    if trimL text = [] then (st, OutResult.accept " ")
    else (st, OutResult.accept (String.mk text))

/-- Attempt iteration within one logical turn: the state before attempt `k`
when the upstream generator produces `texts 0, texts 1, …`. -/
def attemptSt (cfg : Config) (hist : List HistEntry) (texts : Nat → String)
    (st0 : OutState) : Nat → OutState
  | 0 => st0
  | k + 1 => (outputModifier cfg hist (attemptSt cfg hist texts st0 k) (texts k)).1

/-- The modifier's decision on attempt `k`. -/
def attemptRes (cfg : Config) (hist : List HistEntry) (texts : Nat → String)
    (st0 : OutState) (k : Nat) : OutResult :=
  (outputModifier cfg hist (attemptSt cfg hist texts st0 k) (texts k)).2

/-- Decidable check that a raw generation analyzes to a below-threshold score. -/
def poorQuality (cfg : Config) (hist : List HistEntry) (raw : String) : Bool :=
  match analyzeOf cfg hist raw with
  | some a => Frac.blt a.avgScore cfg.bonepoke.qualityThreshold
  | none => false

/-- Folding the output modifier over a session's sequence of generations
(each with the history visible at its turn). -/
def runList (cfg : Config) (st : OutState) : List (List HistEntry × String) → OutState
  | [] => st
  | (h, t) :: rest => runList cfg (outputModifier cfg h st t).1 rest

/-- The number of regeneration signals emitted along the same fold. -/
def countRegens (cfg : Config) (st : OutState) : List (List HistEntry × String) → Nat
  | [] => 0
  | (h, t) :: rest =>
    (if (outputModifier cfg h st t).2 = OutResult.regen then 1 else 0) +
      countRegens cfg (outputModifier cfg h st t).1 rest

/-! ### Story cards (shared library, guidance-card store) -/

/-- A story card; the fields the scripts read or write. -/
structure SCard where
  title : String
  entry : String
  ctype : String
  keys : String
  descr : String
deriving DecidableEq

/-- Modelled from the spec: the guidance-card store is the external host's
`storyCards` collection (spec section 6).  `addStoryCard` is the host API that
appends a fresh card with the given title; when the store refuses creation
(the feature is disabled, spec section 7b), the call is a silent no-op, which
`buildCard` then surfaces by throwing.  `storeEnabled` selects between the
two host behaviours. -/
structure Env where
  storeEnabled : Bool
deriving DecidableEq

def blankCard (title : String) : SCard :=
  { title := title, entry := "", ctype := "", keys := "", descr := "" }

def addStoryCard (env : Env) (store : List SCard) (title : String) : List SCard :=
  if env.storeEnabled then store ++ [blankCard title] else store

/-- First index satisfying a predicate (JS `findIndex` / the `entries` scan). -/
def findIdxW (p : SCard → Bool) : List SCard → Option Nat
  | [] => none
  | c :: cs => if p c then some 0 else (findIdxW p cs).map (fun i => i + 1)

/-- `buildCard` (shared library lines 103–140): create a `%TEMP%` card,
configure the first card bearing that title, move it to the clamped insertion
index; throw when no such card exists.  The `typeof`/`Number.isInteger`
argument guards cannot fire in the typed embedding. -/
def buildCard (env : Env) (store : List SCard) (title entry ctype keys descr : String)
    (insertionIndex : Int) : Except String (List SCard) :=
  let ii : Nat := (min (max 0 insertionIndex) (store.length : Int)).toNat
  let store1 := addStoryCard env store "%TEMP%"
  match findIdxW (fun c => c.title == "%TEMP%") store1 with
  | none => Except.error "Failed to create story card"
  | some i =>
    let card : SCard :=
      { title := title, entry := entry, ctype := ctype, keys := keys, descr := descr }
    let store2 := store1.set i card
    Except.ok (if i = ii then store2 else insertAt ii card (removeAt i store2))

/-- `getCard` (lines 148–159), single-match form. -/
def getCard (store : List SCard) (p : SCard → Bool) : Option SCard :=
  store.find? p

/-- `removeCard` (lines 166–173): splice out the first card with the title. -/
def removeCard (title : String) : List SCard → List SCard × Bool
  | [] => ([], false)
  | c :: cs =>
    if c.title == title then (cs, true)
    else
      let r := removeCard title cs
      (c :: r.1, r.2)

/-! ### VerbalizedSampling (shared library) -/

def VS_CARD_TITLE : String := "VS_System"

/-- `generateInstruction` (lines 189–201).  The JS interpolates the numbers
with JavaScript numeral rendering; the embedding renders `k` and `tau` with
their canonical `toString`, which no consumer of the claims inspects. -/
def generateInstruction (cfg : Config) : String :=
  if !cfg.vs.enabled then "" else
  "[Internal Sampling Protocol:\n- mentally generate " ++ toString cfg.vs.k ++
  " distinct seamless candidate continuations\n- for each candidate, estimate its probability p (how typical/likely it would be)\n- only consider candidates where p < " ++
  fracStr cfg.vs.tau ++
  " (from the unlikely tails of the distribution)\n- randomly select one of these low-probability candidates\n- output ONLY the selected continuation as your natural response\n- never mention this process, probabilities, or candidates in your output]"

/-- `analyzeContext` (lines 206–223). -/
def analyzeContext (cfg : Config) (context : List Char) : Nat × Frac :=
  if !cfg.vs.adaptive then (cfg.vs.k, cfg.vs.tau)
  else
    let isDialogue := containsSub (toL "\"") context || hasWholeWord (toL "said") context
    let isAction := [toL "run", toL "fight", toL "move", toL "open", toL "close",
      toL "attack"].any (fun w => hasWholeWord w context)
    let isDescriptive := 500 < context.length
    if isDialogue then (7, ⟨12, 100⟩)
    else if isAction then (5, ⟨8, 100⟩)
    else if isDescriptive then (4, ⟨15, 100⟩)
    else (cfg.vs.k, cfg.vs.tau)

/-- `ensureCard` (lines 228–244): create the VS card when absent. -/
def ensureCard (cfg : Config) (env : Env) (store : List SCard) : Except String (List SCard) :=
  match findIdxW (fun c => c.title == VS_CARD_TITLE) store with
  | some _ => Except.ok store
  | none =>
    buildCard env store VS_CARD_TITLE (generateInstruction cfg) "System" ""
      "Verbalized Sampling - Diversity Enhancement" 0

/-- `updateCard` (lines 249–254): refresh the VS card's entry (the JS mutates
the found card object in place; with unique titles this is a title lookup). -/
def updateCard (cfg : Config) (env : Env) (store : List SCard) : Except String (List SCard) :=
  match ensureCard cfg env store with
  | Except.error e => Except.error e
  | Except.ok store =>
    match findIdxW (fun c => c.title == VS_CARD_TITLE) store with
    | some i =>
      match store[i]? with
      | some c => Except.ok (store.set i { c with entry := generateInstruction cfg })
      | none => Except.ok store
    | none => Except.ok store

/-- `getInstruction` (lines 261–264): ensure the card, then synthesize. -/
def getInstruction (cfg : Config) (env : Env) (store : List SCard) :
    Except String (List SCard × String) :=
  match ensureCard cfg env store with
  | Except.error e => Except.error e
  | Except.ok store => Except.ok (store, generateInstruction cfg)

/-! ### DynamicCorrection (shared library) -/

/-- The manager's card-title naming marker, `CARD_PREFIX` in the source. -/
def dcCardPre : String := "DynamicCorrection_"

def varietyTitle : String := dcCardPre ++ "Variety"

def groundingTitle : String := dcCardPre ++ "Grounding"

def coherenceTitle : String := dcCardPre ++ "Coherence"

/-- `state.dynamicCards`. -/
structure DynState where
  dynamicCards : List String
deriving DecidableEq

def varietyEntry (fatigueWords : List (List Char × Nat)) : String :=
  "[Style guidance: Avoid repeating these overused words: " ++
  String.intercalate ", " (((fatigueWords.map Prod.fst).take 5).map String.mk) ++
  ". Use synonyms, varied phrasing, and fresh descriptions.]"

/-- `correctFatigue` (lines 465–482). -/
def correctFatigue (env : Env) (store : List SCard) (dyn : DynState)
    (fatigueWords : List (List Char × Nat)) : Except String (List SCard × DynState) :=
  let store := (removeCard varietyTitle store).1
  match buildCard env store varietyTitle (varietyEntry fatigueWords) "guidance" ""
      "Auto-generated variety correction" 0 with
  | Except.error e => Except.error e
  | Except.ok store =>
    Except.ok (store, { dynamicCards := dyn.dynamicCards ++ [varietyTitle] })

/-- `correctDrift` (lines 487–503). -/
def correctDrift (env : Env) (store : List SCard) (dyn : DynState) :
    Except String (List SCard × DynState) :=
  let store := (removeCard groundingTitle store).1
  match buildCard env store groundingTitle
      "[Style guidance: Focus on concrete, physical actions. Show visible responses, character decisions, and tangible events. Avoid abstract system references.]"
      "guidance" "" "Auto-generated grounding correction" 0 with
  | Except.error e => Except.error e
  | Except.ok store =>
    Except.ok (store, { dynamicCards := dyn.dynamicCards ++ [groundingTitle] })

/-- `correctContradictions` (lines 508–524). -/
def correctContradictions (env : Env) (store : List SCard) (dyn : DynState) :
    Except String (List SCard × DynState) :=
  let store := (removeCard coherenceTitle store).1
  match buildCard env store coherenceTitle
      "[Style guidance: Maintain logical consistency. Check temporal sequence (before/after/already). Ensure cause and effect make sense. Verify character knowledge is consistent.]"
      "guidance" "" "Auto-generated coherence correction" 0 with
  | Except.error e => Except.error e
  | Except.ok store =>
    Except.ok (store, { dynamicCards := dyn.dynamicCards ++ [coherenceTitle] })

/-- `cleanup` (lines 529–533): delete every tracked card, clear the tracking. -/
def cleanup (store : List SCard) (dyn : DynState) : List SCard × DynState :=
  (dyn.dynamicCards.foldl (fun s t => (removeCard t s).1) store, { dynamicCards := [] })

/-- `applyCorrections` (lines 538–560). -/
def applyCorrections (cfg : Config) (env : Env) (store : List SCard) (dyn : DynState)
    (analysis : Option Analysis) : Except String (List SCard × DynState) :=
  if !cfg.bonepoke.enableDynamicCorrection || analysis.isNone then
    Except.ok (store, dyn)
  else
    match analysis with
    | none => Except.ok (store, dyn)
    | some a =>
      let sd := cleanup store dyn
      let afterFatigue :=
        if !a.composted.fatigue.isEmpty then
          correctFatigue env sd.1 sd.2 a.composted.fatigue
        else Except.ok sd
      match afterFatigue with
      | Except.error e => Except.error e
      | Except.ok sd =>
        let afterDrift :=
          if !a.composted.drift.isEmpty then correctDrift env sd.1 sd.2
          else Except.ok sd
        match afterDrift with
        | Except.error e => Except.error e
        | Except.ok sd =>
          if !a.composted.contradictions.isEmpty then
            correctContradictions env sd.1 sd.2
          else Except.ok sd

/-! ### The context modifier (`src/context.js`) -/

/-- The slice of the session `state` object touched by the context modifier. -/
structure CtxState where
  lastContextAnalysis : Option Analysis
  vsAdaptedParams : Option (Nat × Frac)
  lastContextSize : Option Nat
  lastContextWords : Option Nat
deriving DecidableEq

def initCtxState : CtxState :=
  { lastContextAnalysis := none, vsAdaptedParams := none,
    lastContextSize := none, lastContextWords := none }

/-- Lines 10–20: the last three AI outputs joined with spaces. -/
def recentHistoryConcat (hist : List HistEntry) : String :=
  String.intercalate " "
    (takeRight 3 ((hist.filter (fun h => h.htype == "ai")).map (fun h => h.text)))

/-- Lines 64–78: the custom Continue handling. -/
def handleContinue (hist : List HistEntry) (text : String) : String :=
  match hist.getLast? with
  | some e =>
    if e.htype == "continue" then
      let lastLine :=
        (((splitOnC '\n' text.data).filter (fun l => !(trimL l).isEmpty)).getLast?).getD []
      let endsSentence :=
        match (trimL lastLine).getLast? with
        | some c => c = '.' || c = '!' || c = '?'
        | none => false
      if !endsSentence then
        "\n\n<SYSTEM>Continue from your last response, maintaining the same scene and tone.</SYSTEM>"
      else ""
    else ""
  | none => ""

/-- JS `text.split(/\s+/).length`. -/
def wsSplitCount (text : String) : Nat := (splitAnyWs text.data).length

/-- The context `modifier` of `src/context.js`.  The JS mutates the global
`CONFIG` object; the embedding threads the configuration through and returns
the value it holds when the turn ends. -/
def contextModifier (cfg : Config) (env : Env) (store : List SCard) (dyn : DynState)
    (cst : CtxState) (hist : List HistEntry) (text : String) :
    Except String (Config × List SCard × DynState × CtxState × String) :=
  let recentOutputs := recentHistoryConcat hist
  let recentAnalysis :=
    if recentOutputs == "" then none else analyze cfg recentOutputs.data
  let step1 : Except String (List SCard × DynState × CtxState) :=
    if cfg.bonepoke.enabled && cfg.bonepoke.enableDynamicCorrection then
      match recentAnalysis with
      | some ra =>
        match applyCorrections cfg env store dyn (some ra) with
        | Except.error e => Except.error e
        | Except.ok sd =>
          Except.ok (sd.1, sd.2, { cst with lastContextAnalysis := some ra })
      | none => Except.ok (store, dyn, cst)
    else Except.ok (store, dyn, cst)
  match step1 with
  | Except.error e => Except.error e
  | Except.ok (store, dyn, cst) =>
    let step2 : Except String (Config × List SCard × CtxState) :=
      if cfg.vs.enabled && cfg.vs.adaptive then
        let adapted := analyzeContext cfg text.data
        let originalK := cfg.vs.k
        let originalTau := cfg.vs.tau
        let cfg := { cfg with vs := { cfg.vs with k := adapted.1, tau := adapted.2 } }
        match updateCard cfg env store with
        | Except.error e => Except.error e
        | Except.ok store =>
          Except.ok (cfg, store, { cst with vsAdaptedParams := some (originalK, originalTau) })
      else Except.ok (cfg, store, cst)
    match step2 with
    | Except.error e => Except.error e
    | Except.ok (cfg, store, cst) =>
      let text := text ++ handleContinue hist text
      let step3 : Except String (List SCard × String) :=
        if cfg.vs.enabled then
          match getInstruction cfg env store with
          | Except.error e => Except.error e
          | Except.ok si => Except.ok (si.1, text ++ "\n\n" ++ si.2)
        else Except.ok (store, text)
      match step3 with
      | Except.error e => Except.error e
      | Except.ok (store, text) =>
        let cst :=
          if cfg.system.enableAnalytics then
            { cst with lastContextSize := some text.length,
                       lastContextWords := some (wsSplitCount text) }
          else cst
        Except.ok (cfg, store, dyn, cst, text)

/-! ### Concrete fixtures used in the witnesses and counterexamples -/

/-- A generation whose analysis is poor: fatigue on `system` (5 ≥ threshold)
and drift on every segment, no emotion, pronoun, or dialogue marker. -/
def badText : String :=
  "The system hums. The system waits. The system hums. The system waits. The system hums."

/-- The analysis record of `badText` under the default configuration. -/
def badAnalysis : Analysis :=
  match analyze CONFIG (toL badText) with
  | some a => a
  | none =>
    { composted := { fragment := [], contradictions := [], fatigue := [],
                     drift := [], marm := "" },
      scores := ⟨0, 0, 0, 0, 0⟩, avgScore := ⟨0, 1⟩, suggestions := [], quality := "" }

def envOn : Env := { storeEnabled := true }

def envOff : Env := { storeEnabled := false }

/-- The default configuration with adaptive Verbalized Sampling switched on. -/
def cfgAdaptive : Config := { CONFIG with vs := { CONFIG.vs with adaptive := true } }

/-- A store already holding the VS system card. -/
def vsCard0 : SCard :=
  { title := "VS_System", entry := "x", ctype := "System", keys := "",
    descr := "Verbalized Sampling - Diversity Enhancement" }

/-- A context text with a dialogue marker (a quote character). -/
def dialogueText : String := "\"Hello,\" she said."

/-- The prior turn and the self-repeating fresh text of the duplicate
suppression scenario. -/
def c6prior : String := "Then she opened the door"

def c6raw : String := "she opened the door and walked in"

/-- The idempotence counterexample: a clean narrative text whose tail repeats
the trailing-artifact token. -/
def c5x : String := "He yelled stopstop"

/-- The default configuration with analytics tracking switched on. -/
def cfgAnalytics : Config :=
  { CONFIG with system := { CONFIG.system with enableAnalytics := true } }

/-- Error component of a result (to state propagation facts decidably). -/
def errOf {α : Type} : Except String α → Option String
  | Except.error e => some e
  | Except.ok _ => none

/-- No card in the store bears the reserved temporary title. -/
def noTemp (store : List SCard) : Bool :=
  store.all (fun c => !(c.title == "%TEMP%"))

/-- Number of cards in the store bearing a given title. -/
def countTitled (store : List SCard) (t : String) : Nat :=
  (store.filter (fun c => c.title == t)).length

/-- Whether a title bears the Correction Manager's naming marker. -/
def hasDCPre (t : String) : Bool := dcCardPre.data.isPrefixOf t.data

/-- Invariant I3: the tracked correction keys exactly match the prefix-named
cards physically present — one card per tracked key, none otherwise, no
duplicates. -/
def dcInv (store : List SCard) (dyn : DynState) : Prop :=
  dyn.dynamicCards.Nodup ∧
  ∀ t : String, hasDCPre t = true →
    countTitled store t = (if t ∈ dyn.dynamicCards then 1 else 0)

/-- The correction keys a cycle creates, in creation order. -/
def dcDetected (a : Analysis) : List String :=
  (if a.composted.fatigue.isEmpty then [] else [varietyTitle]) ++
  (if a.composted.drift.isEmpty then [] else [groundingTitle]) ++
  (if a.composted.contradictions.isEmpty then [] else [coherenceTitle])

/-! ## Helper lemmas -/

theorem head_dropWhile_not (p : Char → Bool) (l : List Char) (c : Char)
    (h : (l.dropWhile p).head? = some c) : p c = false := by
  induction l with
  | nil => simp [List.dropWhile] at h
  | cons a t ih =>
    rw [List.dropWhile_cons] at h
    by_cases hp : p a
    · simp [hp] at h
      exact ih h
    · simp [hp] at h
      subst h
      simpa using hp

theorem dropWhile_eq_self (p : Char → Bool) (l : List Char)
    (h : ∀ c, l.head? = some c → p c = false) : l.dropWhile p = l := by
  cases l with
  | nil => rfl
  | cons a t =>
    rw [List.dropWhile_cons]
    simp [h a rfl]

theorem dropTrailingWs_getLast (l : List Char) (c : Char)
    (h : (dropTrailingWs l).getLast? = some c) : isWsChar c = false := by
  induction l with
  | nil => simp [dropTrailingWs] at h
  | cons a t ih =>
    rw [dropTrailingWs] at h
    cases hr : dropTrailingWs t with
    | nil =>
      by_cases hw : isWsChar a
      · simp [hr, hw] at h
      · simp [hr, hw] at h
        obtain rfl : a = c := h
        simpa using hw
    | cons b bs =>
      rw [hr] at h
      simp only [List.isEmpty_cons, Bool.false_and, if_neg Bool.false_ne_true] at h
      rw [List.getLast?_cons_cons] at h
      exact ih (by rw [hr]; exact h)

theorem dropTrailingWs_eq_self (l : List Char)
    (h : ∀ c, l.getLast? = some c → isWsChar c = false) : dropTrailingWs l = l := by
  induction l with
  | nil => rfl
  | cons a t ih =>
    cases t with
    | nil =>
      have ha := h a (by simp)
      simp [dropTrailingWs, ha]
    | cons b bs =>
      have ht : dropTrailingWs (b :: bs) = b :: bs := by
        apply ih
        intro c hc
        exact h c (by rw [List.getLast?_cons_cons]; exact hc)
      rw [dropTrailingWs, ht]
      simp

theorem dropTrailingWs_head (l : List Char) (c : Char)
    (h : (dropTrailingWs l).head? = some c) : l.head? = some c := by
  cases l with
  | nil => simp [dropTrailingWs] at h
  | cons a t =>
    rw [dropTrailingWs] at h
    by_cases he : (dropTrailingWs t).isEmpty && isWsChar a
    · simp [he] at h
    · simp [he] at h
      simp [h]

theorem trimL_head_not_ws (l : List Char) (c : Char)
    (h : (trimL l).head? = some c) : isWsChar c = false := by
  unfold trimL at h
  exact head_dropWhile_not isWsChar l c (dropTrailingWs_head _ c h)

theorem trimL_getLast_not_ws (l : List Char) (c : Char)
    (h : (trimL l).getLast? = some c) : isWsChar c = false :=
  dropTrailingWs_getLast _ c h

theorem trimL_idem (l : List Char) : trimL (trimL l) = trimL l := by
  have h1 : List.dropWhile isWsChar (trimL l) = trimL l :=
    dropWhile_eq_self isWsChar _ (fun c hc => trimL_head_not_ws l c hc)
  have h2 : dropTrailingWs (trimL l) = trimL l :=
    dropTrailingWs_eq_self _ (fun c hc => trimL_getLast_not_ws l c hc)
  show dropTrailingWs (List.dropWhile isWsChar (trimL l)) = trimL l
  rw [h1, h2]

theorem trimL_eq_self (l : List Char)
    (hh : ∀ c, l.head? = some c → isWsChar c = false)
    (hl : ∀ c, l.getLast? = some c → isWsChar c = false) : trimL l = l := by
  show dropTrailingWs (List.dropWhile isWsChar l) = l
  rw [dropWhile_eq_self isWsChar l hh]
  exact dropTrailingWs_eq_self l hl

theorem nlRun_ne_nil (k : Nat) (hk : k ≠ 0) : nlRun k ≠ [] := by
  unfold nlRun
  split
  · simp
  · intro h
    have hlen := congrArg List.length h
    simp at hlen
    exact hk hlen

theorem collapseGo_ne_nil (l : List Char) (k : Nat) (h : ¬(l = [] ∧ k = 0)) :
    collapseGo k l ≠ [] := by
  induction l generalizing k with
  | nil =>
    have hk : k ≠ 0 := fun h0 => h ⟨rfl, h0⟩
    simpa [collapseGo] using nlRun_ne_nil k hk
  | cons a t ih =>
    rw [collapseGo]
    by_cases ha : a = '\n'
    · simp only [ha, if_pos rfl]
      exact ih (k + 1) (by simp)
    · simp only [if_neg ha]
      simp

theorem collapse_head (l : List Char) (c : Char) (h : l.head? = some c)
    (hw : isWsChar c = false) : (collapseGo 0 l).head? = some c := by
  cases l with
  | nil => simp at h
  | cons a t =>
    obtain rfl : a = c := by simpa using h
    have ha : ¬(a = '\n') := by
      intro hc
      rw [hc] at hw
      simp [isWsChar] at hw
    rw [collapseGo, if_neg ha]
    simp [nlRun]

theorem collapse_getLast (l : List Char) (c : Char) (h : l.getLast? = some c)
    (hw : isWsChar c = false) : ∀ k, (collapseGo k l).getLast? = some c := by
  induction l with
  | nil => simp at h
  | cons a t ih =>
    intro k
    cases t with
    | nil =>
      obtain rfl : a = c := by simpa using h
      have ha : ¬(a = '\n') := by
        intro hc
        rw [hc] at hw
        simp [isWsChar] at hw
      rw [collapseGo, if_neg ha]
      show (nlRun k ++ a :: collapseGo 0 []).getLast? = some a
      have hnil : collapseGo 0 ([] : List Char) = [] := by simp [collapseGo, nlRun]
      rw [hnil]
      exact List.getLast?_concat _
    | cons b bs =>
      rw [List.getLast?_cons_cons] at h
      by_cases ha : a = '\n'
      · rw [collapseGo, if_pos ha]
        exact ih h (k + 1)
      · rw [collapseGo, if_neg ha]
        cases hcb : collapseGo 0 (b :: bs) with
        | nil => exact absurd hcb (collapseGo_ne_nil _ 0 (by simp))
        | cons y ys =>
          have h1 : (y :: ys).getLast? = some c := by
            rw [← hcb]
            exact ih h 0
          have h2 : (a :: y :: ys).getLast? = some c := by
            rw [List.getLast?_cons_cons]
            exact h1
          rw [List.getLast?_append, h2]
          rfl

theorem trimL_collapseNL_trimL (x : List Char) :
    trimL (collapseNL (trimL x)) = collapseNL (trimL x) := by
  cases hm : trimL x with
  | nil =>
    show trimL (collapseGo 0 []) = collapseGo 0 []
    simp [collapseGo, nlRun, trimL, dropTrailingWs]
  | cons a t' =>
    have hha : isWsChar a = false := trimL_head_not_ws x a (by rw [hm]; rfl)
    cases hc0 : (a :: t').getLast? with
    | none => simp at hc0
    | some c0 =>
      have hwc : isWsChar c0 = false :=
        trimL_getLast_not_ws x c0 (by rw [hm]; exact hc0)
      show trimL (collapseGo 0 (a :: t')) = collapseGo 0 (a :: t')
      apply trimL_eq_self
      · intro c hc
        rw [collapse_head (a :: t') a rfl hha] at hc
        obtain rfl : a = c := by simpa using hc
        exact hha
      · intro c hc
        rw [collapse_getLast (a :: t') c0 hc0 hwc 0] at hc
        obtain rfl : c0 = c := by simpa using hc
        exact hwc

theorem trimL_cleanOutput (t : List Char) : trimL (cleanOutput t) = cleanOutput t := by
  have h := trimL_collapseNL_trimL (stripTrailingStop (directiveScrub t))
  show trimL (collapseNL (trimL (trimL (stripTrailingStop (directiveScrub t))))) =
    collapseNL (trimL (trimL (stripTrailingStop (directiveScrub t))))
  rw [trimL_idem]
  exact h

theorem dedupGo_some_trimmed (chunk ttrim : List Char) (n : Nat) (r : List Char)
    (h : dedupGo chunk ttrim n = some r) : trimL r = r := by
  induction n with
  | zero => simp [dedupGo] at h
  | succ k ih =>
    rw [dedupGo] at h
    by_cases h10 : k + 1 < 10
    · simp [h10] at h
    · rw [if_neg h10] at h
      by_cases hhit : dedupHit chunk ttrim (k + 1) = true
      · rw [if_pos hhit] at h
        obtain rfl : trimL (ttrim.drop (dedupSuffix chunk (k + 1)).length) = r := by
          simpa using h
        exact trimL_idem _
      · rw [if_neg hhit] at h
        exact ih h

theorem dedupSearch_some_trimmed (hist : List HistEntry) (t r : List Char)
    (h : dedupSearch hist t = some r) : trimL r = r := by
  unfold dedupSearch at h
  cases hls : lastAiText hist with
  | none => rw [hls] at h; simp [dedupSearchAux] at h
  | some s =>
    rw [hls] at h
    rw [dedupSearchAux] at h
    by_cases hs : s.data = []
    · rw [if_pos hs] at h
      simp at h
    · rw [if_neg hs] at h
      exact dedupGo_some_trimmed _ _ _ r h

theorem trimL_applyDedup (hist : List HistEntry) (t : List Char)
    (ht : trimL t = t) : trimL (applyDedup hist t) = applyDedup hist t := by
  unfold applyDedup
  cases hs : dedupSearch hist (trimL t) with
  | none => simpa [applyDedupAux] using ht
  | some r => simpa [applyDedupAux] using dedupSearch_some_trimmed hist _ r hs

theorem trimL_addSpace (t : List Char) (ht : trimL t = t) :
    trimL (addSpace t) = t := by
  cases t with
  | nil =>
    show trimL (addSpace []) = []
    rfl
  | cons a t' =>
    have hwa : isWsChar a = false := by
      have : (trimL (a :: t')).head? = some a := by rw [ht]; rfl
      exact trimL_head_not_ws _ a this
    have hna : ¬(a = ' ') := by
      intro hsp
      rw [hsp] at hwa
      simp [isWsChar] at hwa
    have haddsp : addSpace (a :: t') = ' ' :: a :: t' := by
      unfold addSpace
      rw [if_neg (by simp [hna])]
    rw [haddsp]
    show dropTrailingWs (List.dropWhile isWsChar (' ' :: a :: t')) = a :: t'
    rw [List.dropWhile_cons, if_pos (by simp [isWsChar])]
    have hdw : List.dropWhile isWsChar (a :: t') = a :: t' := by
      rw [List.dropWhile_cons, if_neg (by simp [hwa])]
    rw [hdw]
    calc dropTrailingWs (a :: t')
        = dropTrailingWs (List.dropWhile isWsChar (a :: t')) := by rw [hdw]
      _ = trimL (a :: t') := rfl
      _ = a :: t' := ht

theorem trimL_sanitizeText (hist : List HistEntry) (raw : List Char) :
    trimL (sanitizeText hist raw) = applyDedup hist (cleanOutput raw) := by
  have ht2 : trimL (applyDedup hist (cleanOutput raw)) = applyDedup hist (cleanOutput raw) :=
    trimL_applyDedup hist _ (trimL_cleanOutput raw)
  exact trimL_addSpace _ ht2

theorem dedupGo_nil (chunk : List Char) : ∀ n, dedupGo chunk [] n = none := by
  intro n
  induction n with
  | zero => rfl
  | succ k ih =>
    rw [dedupGo]
    split
    · rfl
    · have hno : dedupHit chunk [] (k + 1) = false := by
        unfold dedupHit
        cases hsuf : dedupSuffix chunk (k + 1) with
        | nil => simp [hsuf]
        | cons a as => simp [hsuf, List.isPrefixOf]
      rw [if_neg (by simp [hno])]
      exact ih

/-! ## Claim theorems -/

/-- Claim C5, counterexample: the text `He yelled stopstop` holds no directive
leakage (the scrubbing passes leave it unchanged), yet sanitizing twice
differs from sanitizing once — the trailing-artifact removal strips one
trailing `stop` per pass. -/
theorem sanitize_not_idempotent_cex :
    directiveScrub (toL c5x) = toL c5x ∧
    sanitizeText [] (sanitizeText [] (toL c5x)) ≠ sanitizeText [] (toL c5x) := by
  constructor
  · decide
  · decide

/-- Claim C5 (amended): sanitize is idempotent on every input whose sanitized
form passes a second cleaning untouched apart from the guaranteed leading
space and triggers no further duplicate-prefix match against the same prior
turn; the unconditional statement fails (see the counterexample). -/
theorem sanitize_idempotent_conditional (hist : List HistEntry) (x : List Char)
    (h1 : cleanOutput (sanitizeText hist x) = trimL (sanitizeText hist x))
    (h2 : dedupSearch hist (trimL (sanitizeText hist x)) = none) :
    sanitizeText hist (sanitizeText hist x) = sanitizeText hist x := by
  have hts : trimL (sanitizeText hist x) = applyDedup hist (cleanOutput x) :=
    trimL_sanitizeText hist x
  show addSpace (applyDedup hist (cleanOutput (sanitizeText hist x))) = sanitizeText hist x
  rw [h1]
  have hfix : applyDedup hist (trimL (sanitizeText hist x)) = trimL (sanitizeText hist x) := by
    unfold applyDedup
    rw [trimL_idem, h2]
    rfl
  rw [hfix, hts]
  rfl

/-- Closed instance discharging the hypotheses of the conditional idempotence
theorem at a concrete text. -/
theorem sanitize_idempotent_conditional_witness :
    (cleanOutput (sanitizeText [] (toL "Hello there.")) =
        trimL (sanitizeText [] (toL "Hello there.")) ∧
      dedupSearch [] (trimL (sanitizeText [] (toL "Hello there.")))  = none) ∧
    sanitizeText [] (sanitizeText [] (toL "Hello there.")) =
      sanitizeText [] (toL "Hello there.") :=
  ⟨⟨by decide, by decide⟩,
    sanitize_idempotent_conditional [] (toL "Hello there.") (by decide) (by decide)⟩

/-- Claim C6: the duplicate search tries candidate lengths 50 down to 10 over
the prior turn's tail and the longest hit wins — when `len` is the largest
candidate length in `[10, 50]` whose trimmed suffix is non-empty and a prefix
of the trimmed current text, the search returns the current text with exactly
that suffix removed (and re-trimmed). -/
theorem dedup_longest_match (chunk t : List Char) (len : Nat)
    (h10 : 10 ≤ len) (h50 : len ≤ 50)
    (hhit : dedupHit chunk t len = true)
    (hmax : ∀ l, l < 51 → len < l → dedupHit chunk t l = false) :
    dedupGo chunk t 50 = some (trimL (t.drop (dedupSuffix chunk len).length)) := by
  have main : ∀ n, len ≤ n → n ≤ 50 →
      dedupGo chunk t n = some (trimL (t.drop (dedupSuffix chunk len).length)) := by
    intro n
    induction n with
    | zero => intro hle _; omega
    | succ k ih =>
      intro hle hle50
      rw [dedupGo]
      rw [if_neg (by omega : ¬(k + 1 < 10))]
      by_cases heq : len = k + 1
      · rw [if_pos (by rw [← heq]; exact hhit)]
        rw [← heq]
      · have hfalse : dedupHit chunk t (k + 1) = false :=
          hmax (k + 1) (by omega) (by omega)
        rw [if_neg (by simp [hfalse])]
        exact ih (by omega) (by omega)
  exact main 50 h50 (le_refl 50)

/-- Closed instance: prior turn ending `...she opened the door`, fresh text
`she opened the door and walked in`; the longest hit is at candidate length
20, and the fully sanitized output is ` and walked in`. -/
theorem dedup_longest_match_witness :
    (10 ≤ 20 ∧ (20 : Nat) ≤ 50 ∧
      dedupHit (toL c6prior) (trimL (toL c6raw)) 20 = true ∧
      (∀ l, l < 51 → 20 < l → dedupHit (toL c6prior) (trimL (toL c6raw)) l = false)) ∧
    dedupGo (toL c6prior) (trimL (toL c6raw)) 50 =
      some (trimL ((trimL (toL c6raw)).drop (dedupSuffix (toL c6prior) 20).length)) ∧
    dedupGo (toL c6prior) (trimL (toL c6raw)) 50 = some (toL "and walked in") ∧
    sanitizeText [⟨"ai", c6prior⟩] (toL c6raw) = toL " and walked in" :=
  ⟨⟨by decide, by decide, by decide, by decide⟩,
    dedup_longest_match (toL c6prior) (trimL (toL c6raw)) 20
      (by decide) (by decide) (by decide) (by decide),
    by decide, by decide⟩

theorem badText_poor : poorQuality CONFIG [] badText = true := by decide

theorem poorQuality_spec (cfg : Config) (hist : List HistEntry) (raw : String)
    (h : poorQuality cfg hist raw = true) :
    ∃ a, analyzeOf cfg hist raw = some a ∧
      Frac.blt a.avgScore cfg.bonepoke.qualityThreshold = true := by
  unfold poorQuality at h
  cases ha : analyzeOf cfg hist raw with
  | none => rw [ha] at h; simp at h
  | some a =>
    rw [ha] at h
    simp at h
    exact ⟨a, rfl, h⟩

theorem shouldRegenerate_of_poor (cfg : Config) (st : OutState) (a : Analysis)
    (hcnt : st.regenThisOutput < cfg.bonepoke.maxRegenAttempts)
    (henabled : cfg.bonepoke.enabled = true)
    (hscore : Frac.blt a.avgScore cfg.bonepoke.qualityThreshold = true) :
    shouldRegenerate cfg st (some a) = true := by
  unfold shouldRegenerate
  simp [henabled, hcnt, hscore]

theorem analyzeOf_enabled (cfg : Config) (hist : List HistEntry) (raw : String)
    (a : Analysis) (ha : analyzeOf cfg hist raw = some a) :
    cfg.bonepoke.enabled = true := by
  unfold analyzeOf at ha
  by_cases he : cfg.bonepoke.enabled = true
  · exact he
  · rw [if_neg he] at ha
    exact absurd ha (by simp)

theorem outputModifier_poor_step (cfg : Config) (hist : List HistEntry)
    (st : OutState) (raw : String)
    (hpoor : poorQuality cfg hist raw = true)
    (hcnt : st.regenThisOutput < cfg.bonepoke.maxRegenAttempts) :
    (outputModifier cfg hist st raw).2 = OutResult.regen ∧
    (outputModifier cfg hist st raw).1.regenThisOutput = st.regenThisOutput + 1 ∧
    (outputModifier cfg hist st raw).1.regenCount = st.regenCount + 1 ∧
    (outputModifier cfg hist st raw).1.metrics = recordRegeneration cfg st.metrics := by
  obtain ⟨a, ha, hscore⟩ := poorQuality_spec cfg hist raw hpoor
  have henabled := analyzeOf_enabled cfg hist raw a ha
  have hregen : shouldRegenerate cfg
      { st with bonepokeHistory := pushBounded st.bonepokeHistory a,
                lastBonepokeScore := some a.avgScore } (some a) = true :=
    shouldRegenerate_of_poor cfg _ a hcnt henabled hscore
  unfold outputModifier
  rw [ha]
  refine ⟨?_, ?_, ?_, ?_⟩ <;> simp [hregen]

theorem outputModifier_forced_accept (cfg : Config) (hist : List HistEntry)
    (st : OutState) (raw : String)
    (hge : cfg.bonepoke.maxRegenAttempts ≤ st.regenThisOutput) :
    (∃ t, (outputModifier cfg hist st raw).2 = OutResult.accept t) ∧
    (outputModifier cfg hist st raw).1.regenThisOutput = 0 := by
  unfold outputModifier
  cases ha : analyzeOf cfg hist raw with
  | none =>
    have hno : shouldRegenerate cfg st none = false := by
      unfold shouldRegenerate
      simp
    simp only [hno, Bool.false_eq_true, if_false]
    split
    · exact ⟨⟨" ", rfl⟩, rfl⟩
    · exact ⟨⟨_, rfl⟩, rfl⟩
  | some a =>
    have hno : shouldRegenerate cfg
        { st with bonepokeHistory := pushBounded st.bonepokeHistory a,
                  lastBonepokeScore := some a.avgScore } (some a) = false := by
      unfold shouldRegenerate
      simp [Nat.not_lt.mpr hge]
    simp only [hno, Bool.false_eq_true, if_false]
    split
    · exact ⟨⟨" ", rfl⟩, rfl⟩
    · exact ⟨⟨_, rfl⟩, rfl⟩

theorem attemptSt_counter (cfg : Config) (hist : List HistEntry)
    (texts : Nat → String) (st0 : OutState)
    (hzero : st0.regenThisOutput = 0)
    (hpoor : ∀ i, poorQuality cfg hist (texts i) = true) :
    ∀ k, k ≤ cfg.bonepoke.maxRegenAttempts →
      (attemptSt cfg hist texts st0 k).regenThisOutput = k := by
  intro k
  induction k with
  | zero => intro _; exact hzero
  | succ j ih =>
    intro hle
    have hj := ih (by omega)
    have hstep := outputModifier_poor_step cfg hist (attemptSt cfg hist texts st0 j)
      (texts j) (hpoor j) (by rw [hj]; omega)
    show (outputModifier cfg hist (attemptSt cfg hist texts st0 j) (texts j)).1.regenThisOutput
      = j + 1
    rw [hstep.2.1, hj]

/-- Claim C1: with a per-turn counter starting at 0 and every generated output
scoring below the quality threshold, the controller signals regeneration on
each of the first `maxRegenAttempts` attempts, accepts on exactly the
`(maxRegenAttempts+1)`-th attempt, keeps the per-turn counter within
`[0, maxRegenAttempts]` throughout (force-accepting once it reaches the cap),
and resets the counter to 0 on acceptance. -/
theorem regen_bounded_retry (cfg : Config) (hist : List HistEntry)
    (texts : Nat → String) (st0 : OutState)
    (hzero : st0.regenThisOutput = 0)
    (hpoor : ∀ i, poorQuality cfg hist (texts i) = true) :
    (∀ k, k < cfg.bonepoke.maxRegenAttempts →
        attemptRes cfg hist texts st0 k = OutResult.regen) ∧
    (∃ t, attemptRes cfg hist texts st0 cfg.bonepoke.maxRegenAttempts =
        OutResult.accept t) ∧
    (∀ k, k ≤ cfg.bonepoke.maxRegenAttempts + 1 →
        (attemptSt cfg hist texts st0 k).regenThisOutput ≤
          cfg.bonepoke.maxRegenAttempts) ∧
    (attemptSt cfg hist texts st0 (cfg.bonepoke.maxRegenAttempts + 1)).regenThisOutput
      = 0 := by
  have hcnt := attemptSt_counter cfg hist texts st0 hzero hpoor
  have haccept := outputModifier_forced_accept cfg hist
    (attemptSt cfg hist texts st0 cfg.bonepoke.maxRegenAttempts)
    (texts cfg.bonepoke.maxRegenAttempts)
    (by rw [hcnt _ (le_refl _)])
  refine ⟨?_, ?_, ?_, ?_⟩
  · intro k hk
    exact (outputModifier_poor_step cfg hist (attemptSt cfg hist texts st0 k)
      (texts k) (hpoor k) (by rw [hcnt k (le_of_lt hk)]; exact hk)).1
  · exact haccept.1
  · intro k hk
    by_cases hk' : k ≤ cfg.bonepoke.maxRegenAttempts
    · rw [hcnt k hk']
      exact hk'
    · have hkeq : k = cfg.bonepoke.maxRegenAttempts + 1 := by omega
      subst hkeq
      show (outputModifier cfg hist _ _).1.regenThisOutput ≤ _
      rw [haccept.2]
      exact Nat.zero_le _
  · exact haccept.2

/-- Closed instance of the bounded-retry theorem at the default configuration
(`maxRegenAttempts = 2`) with a constant poor-quality generation. -/
theorem regen_bounded_retry_witness :
    (initOutState.regenThisOutput = 0 ∧
      (∀ i : Nat, poorQuality CONFIG [] ((fun _ => badText) i) = true)) ∧
    attemptRes CONFIG [] (fun _ => badText) initOutState 0 = OutResult.regen ∧
    attemptRes CONFIG [] (fun _ => badText) initOutState 1 = OutResult.regen ∧
    (∃ t, attemptRes CONFIG [] (fun _ => badText) initOutState
        CONFIG.bonepoke.maxRegenAttempts = OutResult.accept t) :=
  ⟨⟨rfl, fun _ => badText_poor⟩,
    (regen_bounded_retry CONFIG [] (fun _ => badText) initOutState rfl
      (fun _ => badText_poor)).1 0 (by decide),
    (regen_bounded_retry CONFIG [] (fun _ => badText) initOutState rfl
      (fun _ => badText_poor)).1 1 (by decide),
    (regen_bounded_retry CONFIG [] (fun _ => badText) initOutState rfl
      (fun _ => badText_poor)).2.1⟩

/-- Claim C8: for empty raw input the sanitize step does not fail — the output
path accepts the single-space placeholder as final text, and the analyzer
(hence the Scorer) receives the non-empty placeholder, never the empty
string. -/
theorem empty_input_placeholder (hist : List HistEntry) (st : OutState) :
    (outputModifier CONFIG hist st "").2 = OutResult.accept " " ∧
    sanitizeText hist (toL "") = toL " " ∧
    analyzeOf CONFIG hist "" = some (analyzeCore CONFIG (toL " ")) ∧
    toL " " ≠ toL "" := by
  have hsan : sanitizeText hist (toL "") = toL " " := by
    show addSpace (applyDedup hist (cleanOutput (toL ""))) = toL " "
    have h0 : cleanOutput (toL "") = [] := by decide
    rw [h0]
    have h1 : applyDedup hist [] = [] := by
      unfold applyDedup
      have hnone : dedupSearch hist (trimL []) = none := by
        unfold dedupSearch
        cases lastAiText hist with
        | none => rfl
        | some s =>
          rw [dedupSearchAux]
          split
          · rfl
          · exact dedupGo_nil _ 50
      rw [hnone]
      rfl
    rw [h1]
    decide
  have hsan' : sanitizeText hist ("" : String).data = toL " " := hsan
  have hana : analyzeOf CONFIG hist "" = some (analyzeCore CONFIG (toL " ")) := by
    unfold analyzeOf
    rw [if_pos (by decide : CONFIG.bonepoke.enabled = true)]
    rw [hsan']
    decide
  refine ⟨?_, hsan, hana, by decide⟩
  unfold outputModifier
  rw [hana, hsan']
  have hsr : ∀ stx : OutState,
      shouldRegenerate CONFIG stx (some (analyzeCore CONFIG (toL " "))) = false := by
    intro stx
    unfold shouldRegenerate
    have hblt : Frac.blt (analyzeCore CONFIG (toL " ")).avgScore
        CONFIG.bonepoke.qualityThreshold = false := by decide
    simp [hblt]
  simp only [hsr, Bool.false_eq_true, if_false]
  rw [if_pos (by decide : trimL (toL " ") = [])]

/-- Claim C9, counterexample: on a poor-quality output the modifier signals
regeneration, yet the discarded output's analysis record has already been
pushed onto the bounded analysis history. -/
theorem history_push_on_regen_cex :
    (outputModifier CONFIG [] initOutState badText).2 = OutResult.regen ∧
    (outputModifier CONFIG [] initOutState badText).1.bonepokeHistory =
      [analyzeCore CONFIG (sanitizeText [] (toL badText))] := by
  constructor
  · decide
  · decide

/-- Claim C9 (amended): the analysis record is pushed onto the bounded history
whenever an analysis is produced — before the accept/regenerate decision — so
the records of regenerated (discarded) outputs are retained exactly like
those of accepted ones. -/
theorem history_push_unconditional (cfg : Config) (hist : List HistEntry)
    (st : OutState) (raw : String) (a : Analysis)
    (ha : analyzeOf cfg hist raw = some a) :
    (outputModifier cfg hist st raw).1.bonepokeHistory =
      pushBounded st.bonepokeHistory a := by
  unfold outputModifier
  rw [ha]
  dsimp only
  split
  · rfl
  · split
    · rfl
    · rfl

/-- Closed instance of the unconditional-push theorem at the regeneration
counterexample input. -/
theorem history_push_unconditional_witness :
    analyzeOf CONFIG [] badText =
      some (analyzeCore CONFIG (sanitizeText [] (toL badText))) ∧
    (outputModifier CONFIG [] initOutState badText).1.bonepokeHistory =
      pushBounded initOutState.bonepokeHistory
        (analyzeCore CONFIG (sanitizeText [] (toL badText))) :=
  ⟨by decide,
    history_push_unconditional CONFIG [] initOutState badText _ (by decide)⟩

theorem recordOutput_regenerations (cfg : Config) (m : Metrics)
    (a : Option Analysis) : (recordOutput cfg m a).regenerations = m.regenerations := by
  unfold recordOutput
  split
  · rfl
  · cases a with
    | none => rfl
    | some an =>
      dsimp only
      split
      · split
        · rfl
        · rfl
      · split
        · rfl
        · rfl

/-- Claim C10, counterexample: under the default configuration
(`enableAnalytics = false`) one regeneration occurs (`state.regenCount` goes
to 1), yet the metrics summary still reports zero total regenerations. -/
theorem metrics_summary_disabled_cex :
    (outputModifier CONFIG [] initOutState badText).2 = OutResult.regen ∧
    (outputModifier CONFIG [] initOutState badText).1.regenCount = 1 ∧
    (getSummary (outputModifier CONFIG [] initOutState badText).1.metrics).regenerations
      = 0 ∧
    (0 : Nat) ≠ 1 := by
  refine ⟨by decide, by decide, by decide, by decide⟩

theorem outputModifier_metrics_regen (cfg : Config) (hist : List HistEntry)
    (st : OutState) (raw : String) (hen : cfg.system.enableAnalytics = true) :
    (outputModifier cfg hist st raw).1.metrics.regenerations =
      st.metrics.regenerations +
        (if (outputModifier cfg hist st raw).2 = OutResult.regen then 1 else 0) := by
  unfold outputModifier
  dsimp only
  cases analyzeOf cfg hist raw with
  | none =>
    split
    · simp [recordRegeneration, hen]
    · split <;> simp [recordOutput_regenerations]
  | some a =>
    split
    · simp [recordRegeneration, hen]
    · split <;> simp [recordOutput_regenerations]

/-- Claim C10 (amended): every transition to Regenerating increments the
per-turn counter and the cumulative `state.regenCount`; the metrics counter
feeding the summary is incremented exactly when `enableAnalytics` is on, and
with analytics enabled the summary's total-regenerations figure after any
session equals the number of regeneration signals emitted. -/
theorem regen_metrics_with_analytics :
    (∀ (cfg : Config) (hist : List HistEntry) (st : OutState) (raw : String),
      (outputModifier cfg hist st raw).2 = OutResult.regen →
        (outputModifier cfg hist st raw).1.regenThisOutput = st.regenThisOutput + 1 ∧
        (outputModifier cfg hist st raw).1.regenCount = st.regenCount + 1 ∧
        (cfg.system.enableAnalytics = true →
          (outputModifier cfg hist st raw).1.metrics.regenerations =
            st.metrics.regenerations + 1)) ∧
    (∀ (cfg : Config) (st : OutState) (inputs : List (List HistEntry × String)),
      cfg.system.enableAnalytics = true →
        (getSummary (runList cfg st inputs).metrics).regenerations =
          st.metrics.regenerations + countRegens cfg st inputs) := by
  constructor
  · intro cfg hist st raw hres
    revert hres
    unfold outputModifier
    dsimp only
    cases analyzeOf cfg hist raw with
    | none =>
      split
      · intro _
        refine ⟨rfl, rfl, fun hen => ?_⟩
        simp [recordRegeneration, hen]
      · split <;> (intro hres; exact absurd hres (by simp))
    | some a =>
      split
      · intro _
        refine ⟨rfl, rfl, fun hen => ?_⟩
        simp [recordRegeneration, hen]
      · split <;> (intro hres; exact absurd hres (by simp))
  · intro cfg st inputs hen
    induction inputs generalizing st with
    | nil => simp [runList, countRegens, getSummary]
    | cons p rest ih =>
      obtain ⟨h, t⟩ := p
      rw [runList, countRegens]
      rw [ih ((outputModifier cfg h st t).1)]
      rw [outputModifier_metrics_regen cfg h st t hen]
      omega

/-- Closed instance of the analytics-enabled metrics theorem: one poor-quality
turn with analytics on yields one regeneration signal, `regenCount = 1`, and a
summary total of 1. -/
theorem regen_metrics_with_analytics_witness :
    (outputModifier cfgAnalytics [] initOutState badText).2 = OutResult.regen ∧
    (outputModifier cfgAnalytics [] initOutState badText).1.regenCount = 1 ∧
    cfgAnalytics.system.enableAnalytics = true ∧
    (getSummary (runList cfgAnalytics initOutState [([], badText)]).metrics).regenerations
      = initOutState.metrics.regenerations +
        countRegens cfgAnalytics initOutState [([], badText)] ∧
    countRegens cfgAnalytics initOutState [([], badText)] = 1 :=
  ⟨by decide,
    (regen_metrics_with_analytics.1 cfgAnalytics [] initOutState badText (by decide)).2.1,
    by decide,
    regen_metrics_with_analytics.2 cfgAnalytics initOutState [([], badText)] (by decide),
    by decide⟩

/-- Claim C2 (code bug): in adaptive mode the context modifier overwrites
`CONFIG.vs.k`/`CONFIG.vs.tau` with the adapted parameters and never restores
them — on a dialogue context the configuration leaves the turn with `k = 7`,
`tau = 12/100` instead of the loaded `k = 5`, `tau = 10/100`; with the default
(non-adaptive) configuration the turn leaves every field unchanged. -/
theorem config_mutation_adaptive :
    (match contextModifier cfgAdaptive envOn [vsCard0] ⟨[]⟩ initCtxState [] dialogueText with
     | Except.ok (c, _, _, _, _) => some (c.vs.k, c.vs.tau)
     | Except.error _ => none) = some (7, ⟨12, 100⟩) ∧
    cfgAdaptive.vs.k = 5 ∧ cfgAdaptive.vs.tau = ⟨10, 100⟩ ∧
    (match contextModifier CONFIG envOn [vsCard0] ⟨[]⟩ initCtxState [] dialogueText with
     | Except.ok (c, _, _, _, _) => some c
     | Except.error _ => none) = some CONFIG := by
  refine ⟨by decide, by decide, by decide, by decide⟩

/-- Claim C3, counterexample: when the guidance-card store refuses creation,
`buildCard` throws `Failed to create story card`; the exception escapes
`applyCorrections` and the context modifier's public entry point — no local
degradation to no-ops takes place and no definite result is returned. -/
theorem store_refusal_propagates_cex :
    errOf (applyCorrections CONFIG envOff [] ⟨[]⟩ (analyze CONFIG (toL badText))) =
      some "Failed to create story card" ∧
    errOf (contextModifier CONFIG envOff [] ⟨[]⟩ initCtxState
        [⟨"ai", badText⟩] "The cave.") = some "Failed to create story card" := by
  refine ⟨by decide, by decide⟩

theorem noTemp_findIdxW (store : List SCard) (h : noTemp store = true) :
    findIdxW (fun c => c.title == "%TEMP%") store = none := by
  induction store with
  | nil => rfl
  | cons c cs ih =>
    simp [noTemp] at h
    rw [findIdxW]
    rw [if_neg (by simp [h.1])]
    rw [ih (by simp [noTemp]; exact h.2)]
    rfl

theorem buildCard_off (env : Env) (store : List SCard)
    (title entry ctype keys descr : String) (ii : Int)
    (hoff : env.storeEnabled = false) (htemp : noTemp store = true) :
    buildCard env store title entry ctype keys descr ii =
      Except.error "Failed to create story card" := by
  unfold buildCard
  have hadd : addStoryCard env store "%TEMP%" = store := by
    unfold addStoryCard
    rw [if_neg (by simp [hoff])]
  dsimp only
  rw [hadd, noTemp_findIdxW store htemp]

theorem noTemp_removeCard (title : String) (store : List SCard)
    (h : noTemp store = true) : noTemp (removeCard title store).1 = true := by
  induction store with
  | nil => rfl
  | cons c cs ih =>
    simp [noTemp] at h
    rw [removeCard]
    split
    · simp [noTemp]
      exact h.2
    · have := ih (by simp [noTemp]; exact h.2)
      simp [noTemp] at this ⊢
      exact ⟨h.1, this⟩

theorem noTemp_cleanup (dynL : List String) (store : List SCard)
    (h : noTemp store = true) :
    noTemp (dynL.foldl (fun s t => (removeCard t s).1) store) = true := by
  induction dynL generalizing store with
  | nil => exact h
  | cons t ts ih =>
    rw [List.foldl_cons]
    exact ih _ (noTemp_removeCard t store h)

theorem correctFatigue_off (env : Env) (store : List SCard) (dyn : DynState)
    (fat : List (List Char × Nat)) (hoff : env.storeEnabled = false)
    (htemp : noTemp store = true) :
    correctFatigue env store dyn fat = Except.error "Failed to create story card" := by
  unfold correctFatigue
  dsimp only
  rw [buildCard_off env _ _ _ _ _ _ 0 hoff (noTemp_removeCard _ store htemp)]

theorem correctDrift_off (env : Env) (store : List SCard) (dyn : DynState)
    (hoff : env.storeEnabled = false) (htemp : noTemp store = true) :
    correctDrift env store dyn = Except.error "Failed to create story card" := by
  unfold correctDrift
  dsimp only
  rw [buildCard_off env _ _ _ _ _ _ 0 hoff (noTemp_removeCard _ store htemp)]

theorem correctContradictions_off (env : Env) (store : List SCard) (dyn : DynState)
    (hoff : env.storeEnabled = false) (htemp : noTemp store = true) :
    correctContradictions env store dyn = Except.error "Failed to create story card" := by
  unfold correctContradictions
  dsimp only
  rw [buildCard_off env _ _ _ _ _ _ 0 hoff (noTemp_removeCard _ store htemp)]

/-- Claim C3 (amended): when the store refuses create operations and the
analysis reports any issue, `applyCorrections` returns the store error — the
exception propagates; there is no degradation to no-ops, no once-only
logging, and no recovery anywhere in the call chain. -/
theorem store_refusal_error_propagation (cfg : Config) (env : Env)
    (store : List SCard) (dyn : DynState) (a : Analysis)
    (hoff : env.storeEnabled = false)
    (hdc : cfg.bonepoke.enableDynamicCorrection = true)
    (htemp : noTemp store = true)
    (hissue : a.composted.fatigue ≠ [] ∨ a.composted.drift ≠ [] ∨
      a.composted.contradictions ≠ []) :
    applyCorrections cfg env store dyn (some a) =
      Except.error "Failed to create story card" := by
  unfold applyCorrections
  rw [if_neg (by simp [hdc])]
  dsimp only
  have htemp2 : noTemp (cleanup store dyn).1 = true := noTemp_cleanup _ _ htemp
  by_cases hf : a.composted.fatigue.isEmpty
  · rw [if_neg (by simp [hf])]
    dsimp only
    by_cases hd : a.composted.drift.isEmpty
    · rw [if_neg (by simp [hd])]
      dsimp only
      have hc : ¬a.composted.contradictions.isEmpty := by
        rcases hissue with h | h | h
        · exact absurd (List.isEmpty_iff.mp hf) h
        · exact absurd (List.isEmpty_iff.mp hd) h
        · simpa [List.isEmpty_iff] using h
      rw [if_pos (by simpa using hc)]
      exact correctContradictions_off env _ _ hoff htemp2
    · rw [if_pos (by simpa using hd)]
      rw [correctDrift_off env _ _ hoff htemp2]
  · rw [if_pos (by simpa using hf)]
    rw [correctFatigue_off env _ _ _ hoff htemp2]

/-- Closed instance of the propagation theorem at the shipped configuration
with a fatigue-reporting analysis. -/
theorem store_refusal_error_propagation_witness :
    (envOff.storeEnabled = false ∧
      CONFIG.bonepoke.enableDynamicCorrection = true ∧
      noTemp [] = true ∧ badAnalysis.composted.fatigue ≠ []) ∧
    applyCorrections CONFIG envOff [] ⟨[]⟩ (some badAnalysis) =
      Except.error "Failed to create story card" :=
  ⟨⟨rfl, rfl, rfl, by decide⟩,
    store_refusal_error_propagation CONFIG envOff [] ⟨[]⟩ badAnalysis rfl rfl rfl
      (Or.inl (by decide))⟩

theorem fracBle_nat_iff (m s : Nat) :
    (Frac.ble ⟨m, 1⟩ ⟨s, 5⟩ = true) ↔ (m : ℚ) ≤ (s : ℚ) / 5 := by
  unfold Frac.ble
  rw [decide_eq_true_eq]
  rw [le_div_iff (by norm_num : (0:ℚ) < 5)]
  have h1 : m * 5 ≤ s * 1 ↔ m * 5 ≤ s := by omega
  rw [show (⟨m, 1⟩ : Frac).num * (⟨s, 5⟩ : Frac).den = m * 5 from rfl,
      show (⟨s, 5⟩ : Frac).num * (⟨m, 1⟩ : Frac).den = s * 1 from rfl, h1]
  constructor
  · intro h
    exact_mod_cast h
  · intro h
    exact_mod_cast h

/-- Claim C7: every analysis scores the five dimensions bimodally in
`{1,2,4,5}`, never 3; the rules are: emotion vocabulary present ↔ Emotional
Strength 4 (else 2), any contradiction or drift ↔ Story Flow 1 (else 5), a
whole-word pronoun ↔ Character Clarity 4 (else 2), a quote or reported-speech
verb ↔ Dialogue Weight 4 (else 2), any fatigue ↔ Word Variety 1 (else 5);
the aggregate is the arithmetic mean of the five; the label is `excellent` at
mean ≥ 4, `good` at ≥ 3, `fair` at ≥ 2, else `poor`. -/
theorem scorer_dimension_rules (cfg : Config) (fragment : List Char) (a : Analysis)
    (ha : analyze cfg fragment = some a) :
    ((a.scores.emotionalStrength = 4 ∨ a.scores.emotionalStrength = 2) ∧
     (a.scores.storyFlow = 1 ∨ a.scores.storyFlow = 5) ∧
     (a.scores.characterClarity = 4 ∨ a.scores.characterClarity = 2) ∧
     (a.scores.dialogueWeight = 4 ∨ a.scores.dialogueWeight = 2) ∧
     (a.scores.wordVariety = 1 ∨ a.scores.wordVariety = 5)) ∧
    (a.scores.emotionalStrength ≠ 3 ∧ a.scores.storyFlow ≠ 3 ∧
     a.scores.characterClarity ≠ 3 ∧ a.scores.dialogueWeight ≠ 3 ∧
     a.scores.wordVariety ≠ 3) ∧
    ((a.scores.emotionalStrength = 4 ↔
        ∃ w ∈ emotionWords, containsSub w (lowerL fragment) = true) ∧
     (a.scores.storyFlow = 1 ↔
        (a.composted.contradictions ≠ [] ∨ a.composted.drift ≠ [])) ∧
     (a.scores.characterClarity = 4 ↔
        ∃ p ∈ pronounWords, hasWholeWord p fragment = true) ∧
     (a.scores.dialogueWeight = 4 ↔
        (containsSub (toL "\"") fragment = true ∨
          hasWholeWord (toL "said") fragment = true)) ∧
     (a.scores.wordVariety = 1 ↔ a.composted.fatigue ≠ [])) ∧
    (a.avgScore.toRat = ((a.scores.emotionalStrength : ℚ) + a.scores.storyFlow +
        a.scores.characterClarity + a.scores.dialogueWeight +
        a.scores.wordVariety) / 5) ∧
    ((a.quality = "excellent" ↔ 4 ≤ a.avgScore.toRat) ∧
     (a.quality = "good" ↔ 3 ≤ a.avgScore.toRat ∧ a.avgScore.toRat < 4) ∧
     (a.quality = "fair" ↔ 2 ≤ a.avgScore.toRat ∧ a.avgScore.toRat < 3) ∧
     (a.quality = "poor" ↔ a.avgScore.toRat < 2)) := by
  have ha' : a = analyzeCore cfg fragment := by
    unfold analyze at ha
    split at ha
    · exact absurd ha (by simp)
    · exact (Option.some.inj ha).symm
  subst ha'
  set c : Composted :=
    { fragment := fragment, contradictions := detectContradictions fragment,
      fatigue := traceFatigue cfg fragment, drift := detectDrift fragment,
      marm := calculateMarm fragment (detectContradictions fragment)
        (traceFatigue cfg fragment) (detectDrift fragment) } with hc
  have hsc : (analyzeCore cfg fragment).scores = scoreOutput c := rfl
  have hcomp : (analyzeCore cfg fragment).composted = c := rfl
  have havg : (analyzeCore cfg fragment).avgScore = ⟨scoresSum (scoreOutput c), 5⟩ := rfl
  have hfragc : c.fragment = fragment := rfl
  refine ⟨?_, ?_, ?_, ?_, ?_⟩
  · rw [hsc]
    unfold scoreOutput
    refine ⟨?_, ?_, ?_, ?_, ?_⟩ <;> dsimp only <;> split <;> simp
  · rw [hsc]
    unfold scoreOutput
    refine ⟨?_, ?_, ?_, ?_, ?_⟩ <;> dsimp only <;> split <;> simp
  · rw [hsc, hcomp]
    have hite : ∀ (b : Bool) (x y t : Nat), x = t → ¬(y = t) →
        (((if b = true then x else y) = t) ↔ b = true) := by
      intro b x y t hx hy
      cases b <;> simp [hx, hy]
    refine ⟨?_, ?_, ?_, ?_, ?_⟩
    · unfold scoreOutput
      dsimp only
      rw [hite _ 4 2 4 rfl (by decide)]
      simp [hasEmotion, List.any_eq_true]
    · unfold scoreOutput
      dsimp only
      rw [hite _ 1 5 1 rfl (by decide)]
      simp
    · unfold scoreOutput
      dsimp only
      rw [hite _ 4 2 4 rfl (by decide)]
      simp [hasCharacter, List.any_eq_true]
    · unfold scoreOutput
      dsimp only
      rw [hite _ 4 2 4 rfl (by decide)]
      simp [hasDialogue]
    · unfold scoreOutput
      dsimp only
      rw [hite _ 1 5 1 rfl (by decide)]
      simp
  · rw [havg, hsc]
    show Frac.toRat ⟨scoresSum (scoreOutput c), 5⟩ = _
    unfold Frac.toRat
    rw [show scoresSum (scoreOutput c) = (scoreOutput c).emotionalStrength +
      (scoreOutput c).storyFlow + (scoreOutput c).characterClarity +
      (scoreOutput c).dialogueWeight + (scoreOutput c).wordVariety from rfl]
    push_cast
    ring
  · have hq : (analyzeCore cfg fragment).quality =
        (if Frac.ble ⟨4, 1⟩ ⟨scoresSum (scoreOutput c), 5⟩ then "excellent"
         else if Frac.ble ⟨3, 1⟩ ⟨scoresSum (scoreOutput c), 5⟩ then "good"
         else if Frac.ble ⟨2, 1⟩ ⟨scoresSum (scoreOutput c), 5⟩ then "fair"
         else "poor") := rfl
    have htr : (analyzeCore cfg fragment).avgScore.toRat =
        ((scoresSum (scoreOutput c) : ℚ)) / 5 := rfl
    rw [hq, htr]
    set S := scoresSum (scoreOutput c) with hS
    have h4 := fracBle_nat_iff 4 S
    have h3 := fracBle_nat_iff 3 S
    have h2 := fracBle_nat_iff 2 S
    by_cases b4 : Frac.ble ⟨4, 1⟩ ⟨S, 5⟩ = true
    · have r4 : (4:ℚ) ≤ (S:ℚ)/5 := h4.mp b4
      simp only [b4, if_true]
      refine ⟨by simpa using r4, ?_, ?_, ?_⟩
      · exact ⟨fun h => absurd h (by decide),
          fun h => absurd h.2 (not_lt.mpr r4)⟩
      · exact ⟨fun h => absurd h (by decide),
          fun h => absurd h.2 (by linarith)⟩
      · exact ⟨fun h => absurd h (by decide),
          fun h => absurd h (by linarith)⟩
    · have r4 : ¬((4:ℚ) ≤ (S:ℚ)/5) := fun h => b4 (h4.mpr h)
      simp only [b4, if_false]
      by_cases b3 : Frac.ble ⟨3, 1⟩ ⟨S, 5⟩ = true
      · have r3 : (3:ℚ) ≤ (S:ℚ)/5 := h3.mp b3
        simp only [b3, if_true]
        refine ⟨?_, by simpa using ⟨r3, lt_of_not_le r4⟩, ?_, ?_⟩
        · exact ⟨fun h => absurd h (by decide), fun h => absurd h r4⟩
        · exact ⟨fun h => absurd h (by decide),
            fun h => absurd h.2 (not_lt.mpr r3)⟩
        · exact ⟨fun h => absurd h (by decide),
            fun h => absurd h (by linarith)⟩
      · have r3 : ¬((3:ℚ) ≤ (S:ℚ)/5) := fun h => b3 (h3.mpr h)
        simp only [b3, if_false]
        by_cases b2 : Frac.ble ⟨2, 1⟩ ⟨S, 5⟩ = true
        · have r2 : (2:ℚ) ≤ (S:ℚ)/5 := h2.mp b2
          simp only [b2, if_true]
          refine ⟨?_, ?_, by simpa using ⟨r2, lt_of_not_le r3⟩, ?_⟩
          · exact ⟨fun h => absurd h (by decide), fun h => absurd h r4⟩
          · exact ⟨fun h => absurd h (by decide), fun h => absurd h.1 r3⟩
          · exact ⟨fun h => absurd h (by decide),
              fun h => absurd h (not_lt.mpr r2)⟩
        · have r2 : ¬((2:ℚ) ≤ (S:ℚ)/5) := fun h => b2 (h2.mpr h)
          simp only [b2, if_false]
          refine ⟨?_, ?_, ?_, by simpa using lt_of_not_le r2⟩
          · exact ⟨fun h => absurd h (by decide), fun h => absurd h r4⟩
          · exact ⟨fun h => absurd h (by decide), fun h => absurd h.1 r3⟩
          · exact ⟨fun h => absurd h (by decide), fun h => absurd h.1 r2⟩

/-- Closed instance of the scorer theorem at the poor-quality fixture. -/
theorem scorer_dimension_rules_witness :
    analyze CONFIG (toL badText) = some badAnalysis ∧
    (badAnalysis.scores.storyFlow = 1 ∨ badAnalysis.scores.storyFlow = 5) ∧
    (badAnalysis.quality = "poor" ↔ badAnalysis.avgScore.toRat < 2) ∧
    badAnalysis.quality = "poor" :=
  ⟨by decide,
    (scorer_dimension_rules CONFIG (toL badText) badAnalysis (by decide)).1.2.1,
    (scorer_dimension_rules CONFIG (toL badText) badAnalysis (by decide)).2.2.2.2.2.2.2,
    by decide⟩

theorem findIdxW_append_temp (store : List SCard) (h : noTemp store = true) :
    findIdxW (fun c => c.title == "%TEMP%") (store ++ [blankCard "%TEMP%"]) =
      some store.length := by
  induction store with
  | nil => rfl
  | cons c cs ih =>
    simp [noTemp] at h
    rw [List.cons_append, findIdxW, if_neg (by simp [h.1]),
      ih (by simp [noTemp]; exact h.2)]
    rfl

theorem set_append_len (l : List SCard) (b a : SCard) :
    (l ++ [b]).set l.length a = l ++ [a] := by
  induction l with
  | nil => rfl
  | cons c cs ih => simpa [List.set] using ih

theorem removeAt_append_len (l : List SCard) (a : SCard) :
    removeAt l.length (l ++ [a]) = l := by
  induction l with
  | nil => rfl
  | cons c cs ih =>
    show (c :: (cs ++ [a])).take (cs.length + 1) ++
      (c :: (cs ++ [a])).drop (cs.length + 2) = c :: cs
    rw [List.take_cons_succ]
    show c :: ((cs ++ [a]).take cs.length ++ (cs ++ [a]).drop (cs.length + 1)) = c :: cs
    exact congrArg (c :: ·) ih

theorem buildCard_on (env : Env) (store : List SCard)
    (title entry ctype keys descr : String)
    (hon : env.storeEnabled = true) (htemp : noTemp store = true) :
    buildCard env store title entry ctype keys descr 0 =
      Except.ok (({ title := title, entry := entry, ctype := ctype,
                    keys := keys, descr := descr } : SCard) :: store) := by
  unfold buildCard
  have hadd : addStoryCard env store "%TEMP%" = store ++ [blankCard "%TEMP%"] := by
    unfold addStoryCard
    rw [if_pos hon]
  dsimp only
  rw [hadd, findIdxW_append_temp store htemp]
  dsimp only
  rw [set_append_len]
  have hii : ((min (max 0 (0 : Int)) (store.length : Int)).toNat) = 0 := by
    rw [max_self, min_eq_left (by exact_mod_cast Nat.zero_le store.length)]
    rfl
  rw [hii]
  by_cases hlen : store.length = 0
  · rw [if_pos hlen]
    obtain rfl : store = [] := List.length_eq_zero.mp hlen
    rfl
  · rw [if_neg hlen]
    rw [removeAt_append_len]
    rfl

theorem countTitled_nil (t : String) : countTitled [] t = 0 := rfl

theorem countTitled_cons (c : SCard) (s : List SCard) (t : String) :
    countTitled (c :: s) t = (if c.title = t then 1 else 0) + countTitled s t := by
  unfold countTitled
  by_cases h : c.title = t
  · simp [List.filter_cons, h]
    omega
  · simp [List.filter_cons, h]

theorem countTitled_removeCard_self (t : String) (s : List SCard) :
    countTitled (removeCard t s).1 t = countTitled s t - 1 := by
  induction s with
  | nil => rfl
  | cons c cs ih =>
    rw [removeCard]
    by_cases h : (c.title == t) = true
    · rw [if_pos h]
      rw [countTitled_cons]
      have hct : c.title = t := by simpa using h
      simp [hct]
    · rw [if_neg h]
      dsimp only
      rw [countTitled_cons, countTitled_cons, ih]
      have hct : ¬(c.title = t) := by simpa using h
      simp [hct]

theorem countTitled_removeCard_other (t t' : String) (s : List SCard)
    (hne : ¬(t' = t)) :
    countTitled (removeCard t s).1 t' = countTitled s t' := by
  induction s with
  | nil => rfl
  | cons c cs ih =>
    rw [removeCard]
    by_cases h : (c.title == t) = true
    · rw [if_pos h]
      rw [countTitled_cons]
      have hct : c.title = t := by simpa using h
      have : ¬(c.title = t') := by rw [hct]; exact fun hh => hne hh.symm
      simp [this]
    · rw [if_neg h]
      dsimp only
      rw [countTitled_cons, countTitled_cons, ih]

theorem countTitled_removeCard_le (t t' : String) (s : List SCard) :
    countTitled (removeCard t s).1 t' ≤ countTitled s t' := by
  by_cases h : t' = t
  · subst h
    rw [countTitled_removeCard_self]
    omega
  · rw [countTitled_removeCard_other t t' s h]

theorem countTitled_fold_zero (L : List String) (s : List SCard) (t : String)
    (h : countTitled s t = 0) :
    countTitled (L.foldl (fun s u => (removeCard u s).1) s) t = 0 := by
  induction L generalizing s with
  | nil => exact h
  | cons u us ih =>
    rw [List.foldl_cons]
    exact ih _ (Nat.le_zero.mp (h ▸ countTitled_removeCard_le u t s))

theorem cleanup_count_zero (L : List String) (s : List SCard) (t : String)
    (hnd : L.Nodup) (hc : countTitled s t = if t ∈ L then 1 else 0) :
    countTitled (L.foldl (fun s u => (removeCard u s).1) s) t = 0 := by
  induction L generalizing s with
  | nil => simpa using hc
  | cons u us ih =>
    rw [List.foldl_cons]
    by_cases ht : t = u
    · subst ht
      have h1 : countTitled s t = 1 := by simpa [List.mem_cons] using hc
      have h0 : countTitled (removeCard t s).1 t = 0 := by
        rw [countTitled_removeCard_self, h1]
      exact countTitled_fold_zero us _ t h0
    · exact ih _ (List.nodup_cons.mp hnd).2
        (by rw [countTitled_removeCard_other u t s ht, hc]; simp [List.mem_cons, ht])

theorem cleanup_count (store : List SCard) (dyn : DynState) (t : String)
    (hinv : dcInv store dyn) (hp : hasDCPre t = true) :
    countTitled (cleanup store dyn).1 t = 0 := by
  unfold cleanup
  exact cleanup_count_zero dyn.dynamicCards store t hinv.1 (hinv.2 t hp)

theorem noTemp_cons (c : SCard) (s : List SCard) (hc : ¬(c.title = "%TEMP%"))
    (hs : noTemp s = true) : noTemp (c :: s) = true := by
  simp [noTemp] at hs ⊢
  exact ⟨hc, hs⟩

theorem count_create_step (T E TY K D : String) (store : List SCard) (t : String)
    (hzero : countTitled store T = 0) :
    countTitled (({ title := T, entry := E, ctype := TY, keys := K,
                    descr := D } : SCard) :: (removeCard T store).1) t =
      countTitled store t + (if T = t then 1 else 0) := by
  rw [countTitled_cons]
  by_cases h : t = T
  · subst h
    rw [countTitled_removeCard_self, hzero]
    simp
  · rw [countTitled_removeCard_other T t store h]
    have : ¬(T = t) := fun hh => h hh.symm
    simp [this]

theorem correctFatigue_on (env : Env) (store : List SCard) (dyn : DynState)
    (fat : List (List Char × Nat)) (hon : env.storeEnabled = true)
    (htemp : noTemp store = true) :
    correctFatigue env store dyn fat = Except.ok
      (({ title := varietyTitle, entry := varietyEntry fat, ctype := "guidance",
          keys := "", descr := "Auto-generated variety correction" } : SCard) ::
        (removeCard varietyTitle store).1,
       ⟨dyn.dynamicCards ++ [varietyTitle]⟩) := by
  unfold correctFatigue
  dsimp only
  rw [buildCard_on env _ _ _ _ _ _ hon (noTemp_removeCard _ store htemp)]

theorem correctDrift_on (env : Env) (store : List SCard) (dyn : DynState)
    (hon : env.storeEnabled = true) (htemp : noTemp store = true) :
    correctDrift env store dyn = Except.ok
      (({ title := groundingTitle,
          entry := "[Style guidance: Focus on concrete, physical actions. Show visible responses, character decisions, and tangible events. Avoid abstract system references.]",
          ctype := "guidance", keys := "",
          descr := "Auto-generated grounding correction" } : SCard) ::
        (removeCard groundingTitle store).1,
       ⟨dyn.dynamicCards ++ [groundingTitle]⟩) := by
  unfold correctDrift
  dsimp only
  rw [buildCard_on env _ _ _ _ _ _ hon (noTemp_removeCard _ store htemp)]

theorem correctContradictions_on (env : Env) (store : List SCard) (dyn : DynState)
    (hon : env.storeEnabled = true) (htemp : noTemp store = true) :
    correctContradictions env store dyn = Except.ok
      (({ title := coherenceTitle,
          entry := "[Style guidance: Maintain logical consistency. Check temporal sequence (before/after/already). Ensure cause and effect make sense. Verify character knowledge is consistent.]",
          ctype := "guidance", keys := "",
          descr := "Auto-generated coherence correction" } : SCard) ::
        (removeCard coherenceTitle store).1,
       ⟨dyn.dynamicCards ++ [coherenceTitle]⟩) := by
  unfold correctContradictions
  dsimp only
  rw [buildCard_on env _ _ _ _ _ _ hon (noTemp_removeCard _ store htemp)]

theorem dcDetected_nodup (a : Analysis) : (dcDetected a).Nodup := by
  unfold dcDetected
  have h1 : ¬(varietyTitle = groundingTitle) := by decide
  have h2 : ¬(varietyTitle = coherenceTitle) := by decide
  have h3 : ¬(groundingTitle = coherenceTitle) := by decide
  by_cases hf : a.composted.fatigue.isEmpty <;>
    by_cases hd : a.composted.drift.isEmpty <;>
      by_cases hc : a.composted.contradictions.isEmpty <;>
        simp [hf, hd, hc, h1, h2, h3]

theorem mem_dcDetected_variety (a : Analysis) :
    (varietyTitle ∈ dcDetected a) ↔ ¬(a.composted.fatigue.isEmpty = true) := by
  unfold dcDetected
  have h1 : ¬(varietyTitle = groundingTitle) := by decide
  have h2 : ¬(varietyTitle = coherenceTitle) := by decide
  by_cases hf : a.composted.fatigue.isEmpty <;>
    by_cases hd : a.composted.drift.isEmpty <;>
      by_cases hc : a.composted.contradictions.isEmpty <;>
        simp [hf, hd, hc, h1, h2]

theorem mem_dcDetected_grounding (a : Analysis) :
    (groundingTitle ∈ dcDetected a) ↔ ¬(a.composted.drift.isEmpty = true) := by
  unfold dcDetected
  have h1 : ¬(groundingTitle = varietyTitle) := by decide
  have h2 : ¬(groundingTitle = coherenceTitle) := by decide
  by_cases hf : a.composted.fatigue.isEmpty <;>
    by_cases hd : a.composted.drift.isEmpty <;>
      by_cases hc : a.composted.contradictions.isEmpty <;>
        simp [hf, hd, hc, h1, h2]

theorem mem_dcDetected_coherence (a : Analysis) :
    (coherenceTitle ∈ dcDetected a) ↔ ¬(a.composted.contradictions.isEmpty = true) := by
  unfold dcDetected
  have h1 : ¬(coherenceTitle = varietyTitle) := by decide
  have h2 : ¬(coherenceTitle = groundingTitle) := by decide
  by_cases hf : a.composted.fatigue.isEmpty <;>
    by_cases hd : a.composted.drift.isEmpty <;>
      by_cases hc : a.composted.contradictions.isEmpty <;>
        simp [hf, hd, hc, h1, h2]

theorem mem_dcDetected_sub (a : Analysis) (t : String) (ht : t ∈ dcDetected a) :
    t = varietyTitle ∨ t = groundingTitle ∨ t = coherenceTitle := by
  unfold dcDetected at ht
  by_cases hf : a.composted.fatigue.isEmpty <;>
    by_cases hd : a.composted.drift.isEmpty <;>
      by_cases hc : a.composted.contradictions.isEmpty <;>
        simp [hf, hd, hc] at ht <;> tauto

theorem applyCorrections_cycle (cfg : Config) (env : Env) (store : List SCard)
    (dyn : DynState) (a : Analysis) (hon : env.storeEnabled = true)
    (hdc : cfg.bonepoke.enableDynamicCorrection = true)
    (htemp : noTemp store = true) (hinv : dcInv store dyn) :
    ∃ s3 d3, applyCorrections cfg env store dyn (some a) = Except.ok (s3, d3) ∧
      noTemp s3 = true ∧ d3.dynamicCards = dcDetected a ∧ dcInv s3 d3 := by
  unfold applyCorrections
  rw [if_neg (by simp [hdc])]
  dsimp only
  have hct : noTemp (cleanup store dyn).1 = true := noTemp_cleanup _ _ htemp
  have hinv0 : ∀ t, hasDCPre t = true →
      countTitled (cleanup store dyn).1 t = (if t ∈ ([] : List String) then 1 else 0) := by
    intro t hp
    simpa using cleanup_count store dyn t hinv hp
  have step1 : ∃ s1 L1,
      (if (!a.composted.fatigue.isEmpty) = true then
        correctFatigue env (cleanup store dyn).1 (cleanup store dyn).2
          a.composted.fatigue
       else Except.ok (cleanup store dyn)) = Except.ok (s1, ⟨L1⟩) ∧
      noTemp s1 = true ∧
      L1 = (if a.composted.fatigue.isEmpty then [] else [varietyTitle]) ∧
      (∀ t, hasDCPre t = true → countTitled s1 t = (if t ∈ L1 then 1 else 0)) := by
    by_cases hf : a.composted.fatigue.isEmpty
    · refine ⟨(cleanup store dyn).1, [], ?_, hct, by simp [hf], by simpa using hinv0⟩
      rw [if_neg (by simp [hf])]
      rfl
    · have hz : countTitled ((cleanup store dyn).1) varietyTitle = 0 := by
        simpa using hinv0 varietyTitle (by decide)
      refine ⟨({ title := varietyTitle, entry := varietyEntry a.composted.fatigue,
                 ctype := "guidance", keys := "",
                 descr := "Auto-generated variety correction" } : SCard) ::
          (removeCard varietyTitle (cleanup store dyn).1).1,
        [varietyTitle], ?_, ?_, by simp [hf], ?_⟩
      · rw [if_pos (by simp [hf])]
        rw [correctFatigue_on env _ _ _ hon hct]
        rfl
      · refine noTemp_cons _ _ ?_ (noTemp_removeCard _ _ hct)
        show ¬(varietyTitle = "%TEMP%")
        decide
      · intro t hp
        rw [count_create_step _ _ _ _ _ _ t hz, hinv0 t hp]
        by_cases hv : varietyTitle = t
        · subst hv
          simp
        · have hv' : ¬(t = varietyTitle) := fun hh => hv hh.symm
          simp [hv, hv']
  obtain ⟨s1, L1, hstep1, htemp1, hL1, hinv1⟩ := step1
  rw [hstep1]
  dsimp only
  have step2 : ∃ s2 L2,
      (if (!a.composted.drift.isEmpty) = true then
        correctDrift env s1 ⟨L1⟩
       else Except.ok (s1, ⟨L1⟩)) = Except.ok (s2, ⟨L2⟩) ∧
      noTemp s2 = true ∧
      L2 = L1 ++ (if a.composted.drift.isEmpty then [] else [groundingTitle]) ∧
      (∀ t, hasDCPre t = true → countTitled s2 t = (if t ∈ L2 then 1 else 0)) := by
    by_cases hd : a.composted.drift.isEmpty
    · refine ⟨s1, L1, ?_, htemp1, by simp [hd], hinv1⟩
      rw [if_neg (by simp [hd])]
    · have hGnotin : groundingTitle ∉ L1 := by
        rw [hL1]
        have h1 : ¬(groundingTitle = varietyTitle) := by decide
        split <;> simp [h1]
      have hz : countTitled s1 groundingTitle = 0 := by
        rw [hinv1 groundingTitle (by decide)]
        simp [hGnotin]
      refine ⟨({ title := groundingTitle,
                 entry := "[Style guidance: Focus on concrete, physical actions. Show visible responses, character decisions, and tangible events. Avoid abstract system references.]",
                 ctype := "guidance", keys := "",
                 descr := "Auto-generated grounding correction" } : SCard) ::
          (removeCard groundingTitle s1).1,
        L1 ++ [groundingTitle], ?_, ?_, by simp [hd], ?_⟩
      · rw [if_pos (by simp [hd])]
        rw [correctDrift_on env _ _ hon htemp1]
      · refine noTemp_cons _ _ ?_ (noTemp_removeCard _ _ htemp1)
        show ¬(groundingTitle = "%TEMP%")
        decide
      · intro t hp
        rw [count_create_step _ _ _ _ _ _ t hz, hinv1 t hp]
        by_cases hg : groundingTitle = t
        · subst hg
          simp [hGnotin]
        · have hg' : ¬(t = groundingTitle) := fun hh => hg hh.symm
          simp [hg, hg', List.mem_append]
  obtain ⟨s2, L2, hstep2, htemp2, hL2, hinv2⟩ := step2
  rw [hstep2]
  dsimp only
  have step3 : ∃ s3 L3,
      (if (!a.composted.contradictions.isEmpty) = true then
        correctContradictions env s2 ⟨L2⟩
       else Except.ok (s2, ⟨L2⟩)) = Except.ok (s3, ⟨L3⟩) ∧
      noTemp s3 = true ∧
      L3 = L2 ++ (if a.composted.contradictions.isEmpty then []
        else [coherenceTitle]) ∧
      (∀ t, hasDCPre t = true → countTitled s3 t = (if t ∈ L3 then 1 else 0)) := by
    by_cases hc : a.composted.contradictions.isEmpty
    · refine ⟨s2, L2, ?_, htemp2, by simp [hc], hinv2⟩
      rw [if_neg (by simp [hc])]
    · have hCnotin : coherenceTitle ∉ L2 := by
        rw [hL2, hL1]
        have h1 : ¬(coherenceTitle = varietyTitle) := by decide
        have h2 : ¬(coherenceTitle = groundingTitle) := by decide
        split <;> split <;> simp [h1, h2]
      have hz : countTitled s2 coherenceTitle = 0 := by
        rw [hinv2 coherenceTitle (by decide)]
        simp [hCnotin]
      refine ⟨({ title := coherenceTitle,
                 entry := "[Style guidance: Maintain logical consistency. Check temporal sequence (before/after/already). Ensure cause and effect make sense. Verify character knowledge is consistent.]",
                 ctype := "guidance", keys := "",
                 descr := "Auto-generated coherence correction" } : SCard) ::
          (removeCard coherenceTitle s2).1,
        L2 ++ [coherenceTitle], ?_, ?_, by simp [hc], ?_⟩
      · rw [if_pos (by simp [hc])]
        rw [correctContradictions_on env _ _ hon htemp2]
      · refine noTemp_cons _ _ ?_ (noTemp_removeCard _ _ htemp2)
        show ¬(coherenceTitle = "%TEMP%")
        decide
      · intro t hp
        rw [count_create_step _ _ _ _ _ _ t hz, hinv2 t hp]
        by_cases hco : coherenceTitle = t
        · subst hco
          simp [hCnotin]
        · have hco' : ¬(t = coherenceTitle) := fun hh => hco hh.symm
          simp [hco, hco', List.mem_append]
  obtain ⟨s3, L3, hstep3, htemp3, hL3, hinv3⟩ := step3
  rw [hstep3]
  have hLdet : L3 = dcDetected a := by
    rw [hL3, hL2, hL1]
    unfold dcDetected
    rw [List.append_assoc]
  exact ⟨s3, ⟨L3⟩, rfl, htemp3, hLdet, by rw [hLdet]; exact dcDetected_nodup a,
    fun t hp => by rw [hinv3 t hp]⟩

/-- Claim C4: starting from a state satisfying the tracking invariant (true at
session start: no prefix-named cards, empty tracked set), two consecutive
correction cycles with dynamic correction enabled and non-null analyses leave
the store with at most one artifact per issue category, exactly one per
category detected in the latest cycle and zero per category not detected, and
with the tracked keys exactly matching the prefix-named cards present — no
orphans, no duplicates. -/
theorem correction_exclusivity_two_cycles (cfg : Config) (env : Env)
    (store : List SCard) (dyn : DynState) (a1 a2 : Analysis)
    (hon : env.storeEnabled = true)
    (hdc : cfg.bonepoke.enableDynamicCorrection = true)
    (htemp : noTemp store = true) (hinv : dcInv store dyn) :
    ∃ s1 d1 s2 d2,
      applyCorrections cfg env store dyn (some a1) = Except.ok (s1, d1) ∧
      applyCorrections cfg env s1 d1 (some a2) = Except.ok (s2, d2) ∧
      d2.dynamicCards = dcDetected a2 ∧ dcInv s2 d2 ∧
      (∀ t, hasDCPre t = true → countTitled s2 t ≤ 1) ∧
      countTitled s2 varietyTitle =
        (if a2.composted.fatigue.isEmpty then 0 else 1) ∧
      countTitled s2 groundingTitle =
        (if a2.composted.drift.isEmpty then 0 else 1) ∧
      countTitled s2 coherenceTitle =
        (if a2.composted.contradictions.isEmpty then 0 else 1) ∧
      (∀ t, hasDCPre t = true → ¬(t = varietyTitle) → ¬(t = groundingTitle) →
        ¬(t = coherenceTitle) → countTitled s2 t = 0) := by
  obtain ⟨s1, d1, he1, ht1, hd1, hi1⟩ :=
    applyCorrections_cycle cfg env store dyn a1 hon hdc htemp hinv
  obtain ⟨s2, d2, he2, ht2, hd2, hi2⟩ :=
    applyCorrections_cycle cfg env s1 d1 a2 hon hdc ht1 hi1
  refine ⟨s1, d1, s2, d2, he1, he2, hd2, hi2, ?_, ?_, ?_, ?_, ?_⟩
  · intro t hp
    rw [hi2.2 t hp]
    split <;> omega
  · rw [hi2.2 varietyTitle (by decide), hd2]
    by_cases hf : a2.composted.fatigue.isEmpty <;>
      simp [mem_dcDetected_variety, hf]
  · rw [hi2.2 groundingTitle (by decide), hd2]
    by_cases hd : a2.composted.drift.isEmpty <;>
      simp [mem_dcDetected_grounding, hd]
  · rw [hi2.2 coherenceTitle (by decide), hd2]
    by_cases hc : a2.composted.contradictions.isEmpty <;>
      simp [mem_dcDetected_coherence, hc]
  · intro t hp h1 h2 h3
    rw [hi2.2 t hp, hd2]
    have hnot : t ∉ dcDetected a2 := fun hm =>
      (mem_dcDetected_sub a2 t hm).elim h1 (fun hx => hx.elim h2 h3)
    simp [hnot]

/-- Closed instance of the two-cycle exclusivity theorem: a fresh session
store and two cycles on the fatigue-and-drift fixture analysis. -/
theorem correction_exclusivity_two_cycles_witness :
    (envOn.storeEnabled = true ∧ CONFIG.bonepoke.enableDynamicCorrection = true ∧
      noTemp [] = true ∧ dcInv [] ⟨[]⟩) ∧
    (∃ s1 d1 s2 d2,
      applyCorrections CONFIG envOn [] ⟨[]⟩ (some badAnalysis) = Except.ok (s1, d1) ∧
      applyCorrections CONFIG envOn s1 d1 (some badAnalysis) = Except.ok (s2, d2) ∧
      d2.dynamicCards = dcDetected badAnalysis ∧ dcInv s2 d2 ∧
      (∀ t, hasDCPre t = true → countTitled s2 t ≤ 1) ∧
      countTitled s2 varietyTitle =
        (if badAnalysis.composted.fatigue.isEmpty then 0 else 1) ∧
      countTitled s2 groundingTitle =
        (if badAnalysis.composted.drift.isEmpty then 0 else 1) ∧
      countTitled s2 coherenceTitle =
        (if badAnalysis.composted.contradictions.isEmpty then 0 else 1) ∧
      (∀ t, hasDCPre t = true → ¬(t = varietyTitle) → ¬(t = groundingTitle) →
        ¬(t = coherenceTitle) → countTitled s2 t = 0)) :=
  ⟨⟨rfl, rfl, rfl, ⟨List.nodup_nil, fun t _ => by simp [countTitled]⟩⟩,
    correction_exclusivity_two_cycles CONFIG envOn [] ⟨[]⟩ badAnalysis badAnalysis
      rfl rfl rfl ⟨List.nodup_nil, fun t _ => by simp [countTitled]⟩⟩

end ECWS
